import Mathlib

/-!
Verification of the clipset video-processing backend
(`backend/app/services/{chunk_manager,video_processor,background_tasks}.py`).

The Python services are shallowly embedded: every subprocess invocation is an
environment-supplied outcome, the filesystem pieces the code inspects are
explicit data, and control flow (including `try`/`except`/`finally`) is
translated branch by branch.
-/

/-! ## Basic helpers shared by the embeddings -/

/-- Single-quote character, used when assembling ffmpeg filter strings. -/
def squote : String := String.mk [Char.ofNat 39]

/-- Python `hay.count(needle) > 0`, i.e. the `needle in hay` test for strings. -/
def hasSub (hay needle : String) : Bool := (hay.splitOn needle).length ≥ 2

/-- Python `s[-n:]` for a string `s` (the last `n` characters, or all of them). -/
def lastN (n : Nat) (s : String) : String :=
  String.mk (s.data.drop (s.data.length - n))

/-- Decimal digit character: `digitChar d` is the character for digit `d`. -/
def digitChar (d : Nat) : Char := Char.ofNat (48 + d)

/-- Fuel-driven accumulator loop producing most-significant-first decimal
digits, as in core's `Nat.toDigits`. -/
def decCharsAux : Nat → Nat → List Char → List Char
  | 0, _, acc => acc
  | fuel + 1, n, acc =>
    if n < 10 then digitChar n :: acc
    else decCharsAux fuel (n / 10) (digitChar (n % 10) :: acc)

/-- Most-significant-first decimal digits of a natural number, as characters.
Mirrors the decimal rendering used by Python `"%d"` formatting. -/
def decChars (n : Nat) : List Char := decCharsAux (n + 1) n []

/-- Recursive characterization of `decChars`, convenient for proofs. -/
def decCharsRec (n : Nat) : List Char :=
  if _h : n < 10 then [digitChar n]
  else decCharsRec (n / 10) ++ [digitChar (n % 10)]
  termination_by n
  decreasing_by
    exact Nat.div_lt_self (by omega) (by omega)

/-- Python `f"{i:05d}"`: decimal rendering zero-padded to width 5
(the sign, when present, counts towards the width). -/
def pad5 (i : Int) : String :=
  if 0 ≤ i then
    let s := decChars i.toNat
    String.mk (List.replicate (5 - s.length) (digitChar 0) ++ s)
  else
    let s := decChars i.natAbs
    String.mk (Char.ofNat 45 :: List.replicate (4 - s.length) (digitChar 0) ++ s)

/-! ## Chunk manager (`chunk_manager.py`) -/

/-- File contents are modelled as lists of byte values. -/
abbrev Bytes := List Nat

/-- An upload session directory: stored chunk files, `filename ↦ contents`.
`save_chunk` keeps the names unique, like a real directory. -/
abbrev Session := List (String × Bytes)

/-- Chunk filename used by `save_chunk`: `f"chunk_{chunk_index:05d}"`. -/
def chunkName (i : Int) : String := "chunk_" ++ pad5 i

/-- Writing a file into a directory: replaces the contents when the name
already exists, otherwise adds a new entry. -/
def assocSet : Session → String → Bytes → Session
  | [], k, v => [(k, v)]
  | (k1, v1) :: rest, k, v =>
    if k1 = k then (k, v) :: rest else (k1, v1) :: assocSet rest k v

/-- Reading a file from a directory by name. -/
def assocGet : Session → String → Option Bytes
  | [], _ => none
  | (k1, v1) :: rest, k => if k1 = k then some v1 else assocGet rest k

/-- `chunk_manager.save_chunk`: writes `chunk_{index:05d}` (with `open(..,"wb")`,
which truncates an existing file) and returns `len(chunk_data)`. -/
def save_chunk (s : Session) (chunk_index : Int) (chunk_data : Bytes) :
    Session × Nat :=
  (assocSet s (chunkName chunk_index) chunk_data, chunk_data.length)

/-- Strict lexicographic (codepoint) order on character lists: exactly the
comparison Python uses between the path strings of two chunk files. -/
def charListLT : List Char → List Char → Bool
  | [], [] => false
  | [], _ :: _ => true
  | _ :: _, [] => false
  | a :: as, b :: bs => if a < b then true else if b < a then false else charListLT as bs

/-- Non-strict lexicographic order on character lists. -/
def charListLE (l m : List Char) : Bool := !(charListLT m l)

/-- The ordering used by `merge_chunks`: `sorted(session_path.glob("chunk_*"))`
sorts the chunk files by filename (lexicographically by codepoint). -/
def sortedChunks (s : Session) : Session :=
  List.insertionSort (fun a b => charListLE a.1.data b.1.data = true) s

/-- `chunk_manager.merge_chunks`: raises (`none`) when the session has no
chunks, otherwise concatenates the chunk files sorted by filename into the
destination and returns `(destination contents, total_bytes)`. -/
def merge_chunks (s : Session) : Option (Bytes × Nat) :=
  if s.isEmpty then none
  else
    let chunks := sortedChunks s
    some ((chunks.map (fun c => c.2)).flatten,
          (chunks.map (fun c => c.2.length)).sum)

/-- A whole upload history: `save_chunk` calls `(index, bytes)` in arrival
order, starting from the fresh session created by `init_upload_session`. -/
def buildSession (calls : List (Int × Bytes)) : Session :=
  calls.foldl (fun s c => (save_chunk s c.1 c.2).1) []

/-- Spec-side definition (the claim's words): the merge output described by the
spec concatenates the chunks strictly in increasing index order. -/
def mergeSpecByIndex (calls : List (Int × Bytes)) : Bytes :=
  ((List.insertionSort (fun a b => a.1 ≤ b.1) calls).map (fun c => c.2)).flatten

/-! ### Facts about the zero-padded decimal chunk filenames -/

theorem decCharsRec_lt {n : Nat} (h : n < 10) : decCharsRec n = [digitChar n] := by
  rw [decCharsRec]
  simp [h]

theorem decCharsRec_ge {n : Nat} (h : ¬ n < 10) :
    decCharsRec n = decCharsRec (n / 10) ++ [digitChar (n % 10)] := by
  rw [decCharsRec]
  simp [h]

theorem decCharsAux_eq (fuel : Nat) :
    ∀ (n : Nat) (acc : List Char), n < fuel →
      decCharsAux fuel n acc = decCharsRec n ++ acc := by
  induction fuel with
  | zero => intro n acc h; omega
  | succ fuel ih =>
    intro n acc h
    rw [decCharsAux]
    by_cases h10 : n < 10
    · rw [if_pos h10, decCharsRec_lt h10]
      rfl
    · rw [if_neg h10, ih (n / 10) _ (by omega), decCharsRec_ge h10]
      simp

theorem decChars_eq (n : Nat) : decChars n = decCharsRec n := by
  simpa using decCharsAux_eq (n + 1) n [] (by omega)

/-- The exactly-`k`-digit decimal rendering of `n` (for `n < 10 ^ k`). -/
def padExact : Nat → Nat → List Char
  | 0, _ => []
  | k + 1, n => digitChar (n / 10 ^ k) :: padExact k (n % 10 ^ k)

theorem decCharsRec_length_le (k : Nat) :
    ∀ n : Nat, n < 10 ^ (k + 1) → (decCharsRec n).length ≤ k + 1 := by
  induction k with
  | zero =>
    intro n h
    have h10 : n < 10 := by simpa using h
    simp [decCharsRec_lt h10]
  | succ k ih =>
    intro n h
    by_cases h10 : n < 10
    · simp [decCharsRec_lt h10]
    · have hd : n / 10 < 10 ^ (k + 1) := by
        rw [Nat.div_lt_iff_lt_mul (by omega)]
        calc n < 10 ^ (k + 2) := h
        _ = 10 ^ (k + 1) * 10 := by ring
      have := ih (n / 10) hd
      rw [decCharsRec_ge h10]
      simp only [List.length_append, List.length_singleton]
      omega

theorem padExact_succ (k : Nat) :
    ∀ n : Nat, n < 10 ^ (k + 1) →
      padExact (k + 1) n = padExact k (n / 10) ++ [digitChar (n % 10)] := by
  induction k with
  | zero =>
    intro n h
    have h10 : n < 10 := by simpa using h
    simp [padExact, Nat.mod_eq_of_lt h10, Nat.div_eq_of_lt h10]
  | succ k ih =>
    intro n _h
    have hmod : n % 10 ^ (k + 1) < 10 ^ (k + 1) := Nat.mod_lt _ (Nat.pos_pow_of_pos _ (by omega))
    have e1 : n / 10 / 10 ^ k = n / 10 ^ (k + 1) := by
      rw [Nat.div_div_eq_div_mul]
      congr 1
      ring
    have e2 : n % 10 ^ (k + 1) % 10 = n % 10 := by
      apply Nat.mod_mod_of_dvd
      exact dvd_pow_self 10 (Nat.succ_ne_zero k)
    have e3 : n % 10 ^ (k + 1) / 10 = n / 10 % 10 ^ k := by
      have : (10 : Nat) ^ (k + 1) = 10 * 10 ^ k := by ring
      rw [this, Nat.mod_mul_right_div_self]
    calc padExact (k + 2) n
        = digitChar (n / 10 ^ (k + 1)) :: padExact (k + 1) (n % 10 ^ (k + 1)) := rfl
      _ = digitChar (n / 10 ^ (k + 1)) ::
            (padExact k (n % 10 ^ (k + 1) / 10) ++ [digitChar (n % 10 ^ (k + 1) % 10)]) := by
          rw [ih _ hmod]
      _ = digitChar (n / 10 / 10 ^ k) ::
            (padExact k (n / 10 % 10 ^ k) ++ [digitChar (n % 10)]) := by
          rw [e1, e2, e3]
      _ = padExact (k + 1) (n / 10) ++ [digitChar (n % 10)] := rfl

theorem pad_eq_padExact (k : Nat) :
    ∀ n : Nat, n < 10 ^ (k + 1) →
      List.replicate ((k + 1) - (decCharsRec n).length) (digitChar 0) ++ decCharsRec n
        = padExact (k + 1) n := by
  induction k with
  | zero =>
    intro n h
    have h10 : n < 10 := by simpa using h
    simp [decCharsRec, h10, padExact, Nat.mod_eq_of_lt h10, Nat.div_eq_of_lt h10]
  | succ k ih =>
    intro n h
    have hd : n / 10 < 10 ^ (k + 1) := by
      rw [Nat.div_lt_iff_lt_mul (by omega)]
      calc n < 10 ^ (k + 2) := h
      _ = 10 ^ (k + 1) * 10 := by ring
    rw [padExact_succ (k + 1) n h, ← ih (n / 10) hd]
    by_cases h10 : n < 10
    · have hdiv : n / 10 = 0 := Nat.div_eq_of_lt h10
      have hmod : n % 10 = n := Nat.mod_eq_of_lt h10
      rw [decCharsRec_lt h10, hdiv, decCharsRec_lt (by omega : (0 : Nat) < 10), hmod]
      simp only [List.length_singleton]
      rw [show (k + 1 + 1 - 1) = (k + 1 - 1) + 1 by omega, List.replicate_succ']
    · rw [decCharsRec_ge h10]
      simp only [List.length_append, List.length_singleton]
      rw [show (k + 1 + 1 - ((decCharsRec (n / 10)).length + 1))
            = (k + 1 - (decCharsRec (n / 10)).length) by omega]
      simp [List.append_assoc]

theorem digitChar_lt {d e : Nat} (hd : d < 10) (he : e < 10) (h : d < e) :
    digitChar d < digitChar e := by
  interval_cases d <;> interval_cases e <;> decide

theorem charListLT_irrefl (l : List Char) : charListLT l l = false := by
  induction l with
  | nil => rfl
  | cons a as ih => simp [charListLT, lt_irrefl, ih]

theorem charListLT_asymm :
    ∀ {l m : List Char}, charListLT l m = true → charListLT m l = false := by
  intro l
  induction l with
  | nil =>
    intro m h
    cases m with
    | nil => simp [charListLT] at h
    | cons b bs => rfl
  | cons a as ih =>
    intro m h
    cases m with
    | nil => simp [charListLT] at h
    | cons b bs =>
      simp only [charListLT] at h ⊢
      by_cases hab : a < b
      · rw [if_neg (lt_asymm hab), if_pos hab]
      · by_cases hba : b < a
        · simp [hab, hba] at h
        · simp only [hab, hba, if_false] at h
          simp only [hba, hab, if_false]
          exact ih h

theorem charListLT_append_left (p : List Char) (s t : List Char) :
    charListLT (p ++ s) (p ++ t) = charListLT s t := by
  induction p with
  | nil => rfl
  | cons c cs ih => simp [charListLT, lt_irrefl, ih]

theorem padExact_lt {k : Nat} :
    ∀ {m n : Nat}, m < n → n < 10 ^ k → charListLT (padExact k m) (padExact k n) = true := by
  induction k with
  | zero => intro m n hmn hn; omega
  | succ k ih =>
    intro m n hmn hn
    have hp : (0 : Nat) < 10 ^ k := Nat.pos_pow_of_pos _ (by omega)
    have hdn : n / 10 ^ k < 10 := by
      rw [Nat.div_lt_iff_lt_mul hp]
      calc n < 10 ^ (k + 1) := hn
      _ = 10 * 10 ^ k := by ring
    have hdm : m / 10 ^ k < 10 := by
      rw [Nat.div_lt_iff_lt_mul hp]
      have : m < 10 ^ (k + 1) := lt_trans hmn hn
      calc m < 10 ^ (k + 1) := this
      _ = 10 * 10 ^ k := by ring
    simp only [padExact, charListLT]
    rcases Nat.lt_or_ge (m / 10 ^ k) (n / 10 ^ k) with hlt | hge
    · rw [if_pos (digitChar_lt hdm hdn hlt)]
    · have heq : m / 10 ^ k = n / 10 ^ k :=
        le_antisymm (Nat.div_le_div_right (le_of_lt hmn)) hge
      rw [heq, if_neg (lt_irrefl _), if_neg (lt_irrefl _)]
      apply ih ?_ (Nat.mod_lt n hp)
      have hm := Nat.div_add_mod m (10 ^ k)
      have hn2 := Nat.div_add_mod n (10 ^ k)
      rw [heq] at hm
      omega

theorem chunkName_data {i : Int} (h0 : 0 ≤ i) :
    (chunkName i).data
      = "chunk_".data
        ++ (List.replicate (5 - (decCharsRec i.toNat).length) (digitChar 0)
              ++ decCharsRec i.toNat) := by
  rw [chunkName, pad5, if_pos h0, String.data_append]
  simp [decChars_eq]

theorem chunkName_lt {i j : Int} (h0 : 0 ≤ i) (hij : i < j) (hj : j < 100000) :
    charListLT (chunkName i).data (chunkName j).data = true := by
  have hi5 : i.toNat < 10 ^ (4 + 1) := by norm_num; omega
  have hj5 : j.toNat < 10 ^ (4 + 1) := by norm_num; omega
  rw [chunkName_data h0, chunkName_data (by omega : (0 : Int) ≤ j),
      pad_eq_padExact 4 _ hi5, pad_eq_padExact 4 _ hj5, charListLT_append_left]
  exact padExact_lt (by omega) hj5

theorem chunkName_le_iff {i j : Int} (hi0 : 0 ≤ i) (hi : i < 100000)
    (hj0 : 0 ≤ j) (hj : j < 100000) :
    (charListLE (chunkName i).data (chunkName j).data = true) ↔ i ≤ j := by
  unfold charListLE
  constructor
  · intro h
    by_contra hc
    push_neg at hc
    rw [chunkName_lt hj0 hc hi, Bool.not_true] at h
    exact Bool.false_ne_true h
  · intro h
    rcases eq_or_lt_of_le h with heq | hlt
    · subst heq
      rw [charListLT_irrefl]
      rfl
    · rw [charListLT_asymm (chunkName_lt hi0 hlt hj)]
      rfl

theorem chunkName_ne {i j : Int} (hi0 : 0 ≤ i) (hi : i < 100000)
    (hj0 : 0 ≤ j) (hj : j < 100000) (hne : i ≠ j) : chunkName i ≠ chunkName j := by
  intro hEq
  rcases lt_or_gt_of_ne hne with hlt | hgt
  · have := chunkName_lt hi0 hlt hj
    rw [hEq, charListLT_irrefl] at this
    exact Bool.false_ne_true this
  · have := chunkName_lt hj0 hgt hi
    rw [hEq, charListLT_irrefl] at this
    exact Bool.false_ne_true this

/-! ### Session assembly -/

theorem assocSet_fresh {s : Session} {k : String} (v : Bytes)
    (h : k ∉ s.map Prod.fst) : assocSet s k v = s ++ [(k, v)] := by
  induction s with
  | nil => rfl
  | cons c rest ih =>
    obtain ⟨k1, v1⟩ := c
    simp only [List.map_cons, List.mem_cons] at h
    push_neg at h
    rw [assocSet, if_neg (Ne.symm (by simpa using h.1)), ih h.2]
    simp

theorem buildSession_go (calls : List (Int × Bytes)) :
    ∀ acc : Session,
      (∀ c ∈ calls, chunkName c.1 ∉ acc.map Prod.fst) →
      ((calls.map fun c => chunkName c.1).Nodup) →
      calls.foldl (fun s c => (save_chunk s c.1 c.2).1) acc
        = acc ++ calls.map (fun c => (chunkName c.1, c.2)) := by
  induction calls with
  | nil => intro acc _ _; simp
  | cons c cs ih =>
    intro acc hdisj hnd
    simp only [List.map_cons, List.nodup_cons] at hnd
    rw [List.foldl_cons,
        show (save_chunk acc c.1 c.2).1 = acc ++ [(chunkName c.1, c.2)] from
          assocSet_fresh _ (hdisj c (List.mem_cons_self c cs)),
        ih (acc ++ [(chunkName c.1, c.2)]) ?_ hnd.2]
    · simp
    · intro d hd
      simp only [List.map_append, List.mem_append]
      push_neg
      constructor
      · exact hdisj d (List.mem_cons_of_mem c hd)
      · intro hmem
        simp only [List.map_cons, List.map_nil, List.mem_singleton] at hmem
        exact hnd.1 (hmem ▸ List.mem_map_of_mem (fun c => chunkName c.1) hd)

theorem buildSession_eq (calls : List (Int × Bytes))
    (h : (calls.map fun c => chunkName c.1).Nodup) :
    buildSession calls = calls.map (fun c => (chunkName c.1, c.2)) := by
  simpa using buildSession_go calls [] (by simp) h

theorem chunkNames_nodup (calls : List (Int × Bytes))
    (hrange : ∀ c ∈ calls, 0 ≤ c.1 ∧ c.1 < 100000)
    (hnd : (calls.map Prod.fst).Nodup) :
    (calls.map fun c => chunkName c.1).Nodup := by
  have : (calls.map fun c => chunkName c.1) = (calls.map Prod.fst).map chunkName := by
    simp [List.map_map]
  rw [this]
  apply List.Nodup.map_on ?_ hnd
  intro i hi j hj hEq
  simp only [List.mem_map] at hi hj
  obtain ⟨ci, hci, rfl⟩ := hi
  obtain ⟨cj, hcj, rfl⟩ := hj
  by_contra hne
  exact chunkName_ne (hrange ci hci).1 (hrange ci hci).2
    (hrange cj hcj).1 (hrange cj hcj).2 hne hEq

/-- C2 counterexample: saving chunks at indices 10001 and 100000 (both accepted
by `save_chunk`) makes `merge_chunks` concatenate index 100000 before index
10001, because `"chunk_100000"` sorts lexicographically before
`"chunk_10001"`; the claimed index-order concatenation differs. -/
theorem merge_chunks_order_cex :
    merge_chunks (buildSession [(10001, [1]), (100000, [2])]) = some ([2, 1], 2)
    ∧ mergeSpecByIndex [(10001, [1]), (100000, [2])] = [1, 2]
    ∧ merge_chunks (buildSession [(10001, [1]), (100000, [2])])
        ≠ some (mergeSpecByIndex [(10001, [1]), (100000, [2])], 2) := by
  refine ⟨by decide, by decide, by decide⟩

/-- C2 (amended): for distinct chunk indices in `0 ≤ i < 100000` (where the
five-digit zero padding makes filename order agree with index order), and for
any arrival order, `merge_chunks` concatenates strictly by increasing index,
and the returned total equals the sum of the chunk sizes, which equals the
length of the merged destination contents. -/
theorem merge_chunks_by_index (calls : List (Int × Bytes))
    (hne : calls ≠ [])
    (hrange : ∀ c ∈ calls, 0 ≤ c.1 ∧ c.1 < 100000)
    (hnd : (calls.map Prod.fst).Nodup) :
    merge_chunks (buildSession calls)
      = some (mergeSpecByIndex calls, (calls.map (fun c => c.2.length)).sum)
    ∧ (mergeSpecByIndex calls).length = (calls.map (fun c => c.2.length)).sum := by
  have hnames := chunkNames_nodup calls hrange hnd
  have hbuild := buildSession_eq calls hnames
  have hiff : ∀ a ∈ calls, ∀ b ∈ calls,
      a.1 ≤ b.1 ↔ (charListLE (chunkName a.1).data (chunkName b.1).data = true) := by
    intro a ha b hb
    exact (chunkName_le_iff (hrange a ha).1 (hrange a ha).2
      (hrange b hb).1 (hrange b hb).2).symm
  have hsort : sortedChunks (calls.map fun c => (chunkName c.1, c.2))
      = (List.insertionSort (fun a b : Int × Bytes => a.1 ≤ b.1) calls).map
          (fun c => (chunkName c.1, c.2)) := by
    unfold sortedChunks
    exact (List.map_insertionSort _ _ _ calls hiff).symm
  have hperm : List.Perm
      (List.insertionSort (fun a b : Int × Bytes => a.1 ≤ b.1) calls) calls :=
    List.perm_insertionSort _ _
  have hsum : ((List.insertionSort (fun a b : Int × Bytes => a.1 ≤ b.1) calls).map
        (fun c => c.2.length)).sum = (calls.map (fun c => c.2.length)).sum :=
    (hperm.map _).sum_eq
  constructor
  · rw [hbuild]
    have hne2 : (calls.map fun c => (chunkName c.1, c.2)) ≠ [] := by
      simpa using hne
    simp only [merge_chunks]
    rw [if_neg (by simpa [List.isEmpty_iff] using hne2), hsort]
    simp only [List.map_map]
    rw [mergeSpecByIndex]
    refine congrArg some (Prod.ext rfl ?_)
    · simpa [Function.comp] using hsum
  · rw [mergeSpecByIndex, List.length_flatten, List.map_map]
    simpa [Function.comp] using hsum

/-- Witness for `merge_chunks_by_index`: three chunks saved in order 2,0,1. -/
theorem merge_chunks_by_index_witness :
    (([((2 : Int), ([5, 5] : Bytes)), (0, [1]), (1, [2, 3])] : List (Int × Bytes)) ≠ [])
    ∧ (∀ c ∈ ([((2 : Int), ([5, 5] : Bytes)), (0, [1]), (1, [2, 3])] : List (Int × Bytes)),
        0 ≤ c.1 ∧ c.1 < 100000)
    ∧ (merge_chunks (buildSession [(2, [5, 5]), (0, [1]), (1, [2, 3])])
        = some (mergeSpecByIndex [(2, [5, 5]), (0, [1]), (1, [2, 3])],
            (([((2 : Int), ([5, 5] : Bytes)), (0, [1]), (1, [2, 3])] : List (Int × Bytes)).map
              (fun c => c.2.length)).sum)
        ∧ (mergeSpecByIndex [(2, [5, 5]), (0, [1]), (1, [2, 3])]).length
            = (([((2 : Int), ([5, 5] : Bytes)), (0, [1]), (1, [2, 3])] : List (Int × Bytes)).map
                (fun c => c.2.length)).sum) :=
  ⟨by decide, by decide,
    merge_chunks_by_index [(2, [5, 5]), (0, [1]), (1, [2, 3])]
      (by decide) (by decide) (by decide)⟩

/-! ### Overwrite semantics of `save_chunk` -/

theorem mem_assocSet_names {x : String} (s : Session) (k : String) (v : Bytes) :
    x ∈ (assocSet s k v).map Prod.fst ↔ x ∈ s.map Prod.fst ∨ x = k := by
  induction s with
  | nil => simp [assocSet]
  | cons c rest ih =>
    obtain ⟨k1, v1⟩ := c
    by_cases hk : k1 = k
    · subst hk
      rw [assocSet, if_pos rfl]
      simp only [List.map_cons, List.mem_cons]
      tauto
    · simp only [assocSet, if_neg hk, List.map_cons, List.mem_cons, ih]
      tauto

theorem assocSet_names_nodup (s : Session) (k : String) (v : Bytes)
    (hnd : (s.map Prod.fst).Nodup) : ((assocSet s k v).map Prod.fst).Nodup := by
  induction s with
  | nil => simp [assocSet]
  | cons c rest ih =>
    obtain ⟨k1, v1⟩ := c
    simp only [List.map_cons, List.nodup_cons] at hnd
    by_cases hk : k1 = k
    · subst hk
      rw [assocSet, if_pos rfl, List.map_cons]
      exact List.nodup_cons.mpr ⟨hnd.1, hnd.2⟩
    · simp only [assocSet, if_neg hk, List.map_cons, List.nodup_cons]
      refine ⟨?_, ih hnd.2⟩
      rw [mem_assocSet_names]
      push_neg
      exact ⟨hnd.1, hk⟩

theorem assocGet_assocSet (s : Session) (k : String) (v : Bytes) :
    assocGet (assocSet s k v) k = some v := by
  induction s with
  | nil => simp [assocSet, assocGet]
  | cons c rest ih =>
    obtain ⟨k1, v1⟩ := c
    by_cases hk : k1 = k
    · subst hk
      simp [assocSet, assocGet]
    · simp [assocSet, assocGet, hk, ih]

theorem filter_names_nil {s : Session} {k : String} (h : k ∉ s.map Prod.fst) :
    s.filter (fun c => c.1 = k) = [] := by
  induction s with
  | nil => rfl
  | cons c rest ih =>
    obtain ⟨k1, v1⟩ := c
    simp only [List.map_cons, List.mem_cons] at h
    push_neg at h
    rw [List.filter_cons]
    simp only [decide_eq_true_eq]
    rw [if_neg (Ne.symm (by simpa using h.1))]
    exact ih h.2

theorem filter_assocSet_self (s : Session) (k : String) (v : Bytes)
    (hnd : (s.map Prod.fst).Nodup) :
    (assocSet s k v).filter (fun c => c.1 = k) = [(k, v)] := by
  induction s with
  | nil => simp [assocSet]
  | cons c rest ih =>
    obtain ⟨k1, v1⟩ := c
    simp only [List.map_cons, List.nodup_cons] at hnd
    by_cases hk : k1 = k
    · subst hk
      rw [assocSet, if_pos rfl, List.filter_cons]
      simp only [decide_eq_true_eq, if_pos rfl]
      rw [filter_names_nil hnd.1]
      simp
    · rw [assocSet, if_neg hk, List.filter_cons]
      simp only [decide_eq_true_eq]
      rw [if_neg hk]
      exact ih hnd.2

/-- C10: `save_chunk` called again with an already-saved index silently
overwrites the stored bytes: no error, the chunk file keeps a single entry
holding the latest bytes, the call returns the length of the bytes just
written, and the chunk sequence a subsequent merge concatenates contains that
index's latest bytes exactly once. -/
theorem save_chunk_overwrite (s : Session) (i : Int) (d1 d2 : Bytes)
    (hnd : (s.map Prod.fst).Nodup) :
    (save_chunk (save_chunk s i d1).1 i d2).2 = d2.length
    ∧ assocGet (save_chunk (save_chunk s i d1).1 i d2).1 (chunkName i) = some d2
    ∧ ((save_chunk (save_chunk s i d1).1 i d2).1.map Prod.fst).Nodup
    ∧ (sortedChunks (save_chunk (save_chunk s i d1).1 i d2).1).filter
        (fun c => c.1 = chunkName i) = [(chunkName i, d2)] := by
  have hnd1 : (((save_chunk s i d1).1).map Prod.fst).Nodup :=
    assocSet_names_nodup s _ _ hnd
  refine ⟨rfl, assocGet_assocSet _ _ _, assocSet_names_nodup _ _ _ hnd1, ?_⟩
  have hfil : ((save_chunk (save_chunk s i d1).1 i d2).1).filter
      (fun c => c.1 = chunkName i) = [(chunkName i, d2)] :=
    filter_assocSet_self _ _ _ hnd1
  have hperm : List.Perm
      ((sortedChunks (save_chunk (save_chunk s i d1).1 i d2).1).filter
        (fun c => c.1 = chunkName i))
      (((save_chunk (save_chunk s i d1).1 i d2).1).filter
        (fun c => c.1 = chunkName i)) :=
    (List.perm_insertionSort _ _).filter _
  rw [hfil] at hperm
  exact List.perm_singleton.mp hperm

/-- Witness for `save_chunk_overwrite` at a concrete session. -/
theorem save_chunk_overwrite_witness :
    ((([("chunk_00000", [9])] : Session).map Prod.fst).Nodup)
    ∧ ((save_chunk (save_chunk [("chunk_00000", [9])] 1 [1, 2]).1 1 [3]).2 = 1
      ∧ assocGet (save_chunk (save_chunk [("chunk_00000", [9])] 1 [1, 2]).1 1 [3]).1
          (chunkName 1) = some [3]
      ∧ ((save_chunk (save_chunk [("chunk_00000", [9])] 1 [1, 2]).1 1 [3]).1.map
          Prod.fst).Nodup
      ∧ (sortedChunks (save_chunk (save_chunk [("chunk_00000", [9])] 1 [1, 2]).1 1 [3]).1).filter
          (fun c => c.1 = chunkName 1) = [(chunkName 1, [3])]) :=
  ⟨by decide, save_chunk_overwrite [("chunk_00000", [9])] 1 [1, 2] [3] (by decide)⟩

/-! ## Video processor (`video_processor.py`) -/

/-- Decimal rendering of a natural number (Python `str(n)`). -/
def natStr (n : Nat) : String := String.mk (decChars n)

/-- ASCII lowercase of a string (Python `.lower()` on the values involved). -/
def lowerStr (s : String) : String := String.mk (s.data.map Char.toLower)

/-- Python `str.strip()` whitespace test. -/
def isWS (c : Char) : Bool :=
  c = Char.ofNat 32 || c = Char.ofNat 10 || c = Char.ofNat 9 || c = Char.ofNat 13

/-- Python `str.strip()`. -/
def trimStr (s : String) : String :=
  String.mk (((s.data.dropWhile isWS).reverse.dropWhile isWS).reverse)

/-- Last component of a path (Python `Path(p).name`). -/
def pathName (p : String) : String := ((p.splitOn "/").getLast?).getD ""

/-- Directory part of a path (Python `Path(p).parent`). -/
def pathParent (p : String) : String :=
  String.intercalate "/" ((p.splitOn "/").dropLast)

/-- Index of the last dot of a filename, if any. -/
def lastDotIdx (name : String) : Option Nat :=
  match (name.data.reverse).findIdx? (fun c => c = Char.ofNat 46) with
  | some r => some (name.data.length - 1 - r)
  | none => none

/-- Python `Path(name).stem`: the name without its suffix, where the suffix
starts at the last dot `i` with `0 < i < len(name) - 1`. -/
def stemOf (name : String) : String :=
  match lastDotIdx name with
  | some j =>
    if 0 < j ∧ j < name.data.length - 1 then String.mk (name.data.take j) else name
  | none => name

/-- Python `Path(name).suffix`. -/
def suffixOf (name : String) : String :=
  match lastDotIdx name with
  | some j =>
    if 0 < j ∧ j < name.data.length - 1 then String.mk (name.data.drop j) else ""
  | none => ""

/-- Transcoding settings dictionary: each field carries the value that
`transcode_config.get(key, default)` yields (field defaults are the code's
`.get` defaults). -/
structure TranscodeConfig where
  use_gpu_transcoding : Bool := false
  max_width : Nat := 1920
  max_height : Nat := 1080
  audio_bitrate : String := "192k"
  nvenc_preset : String := "p4"
  nvenc_cq : Nat := 18
  nvenc_rate_control : String := "vbr"
  nvenc_max_bitrate : String := "8M"
  nvenc_buffer_size : String := "16M"
  cpu_preset : String := "medium"
  cpu_crf : Nat := 18
  video_output_format : String := "hls"
deriving Repr, DecidableEq

/-- The `app.config.settings` values the video processor reads. -/
structure Settings where
  FFMPEG_PATH : String := "ffmpeg"
  USE_GPU_TRANSCODING : Bool := false
  NVENC_PRESET : String := "p4"
  NVENC_CQ : Nat := 18
  NVENC_RATE_CONTROL : String := "vbr"
  NVENC_MAX_BITRATE : String := "8M"
  NVENC_BUFFER_SIZE : String := "16M"
deriving Repr, DecidableEq

/-- The `color_info` dictionary handed to the command builders. -/
structure ColorInfo where
  color_range : Option String := none
  color_space : Option String := none
  color_transfer : Option String := none
  color_primaries : Option String := none
  pix_fmt : Option String := none
deriving Repr, DecidableEq

/-- The scale filter string built by `_get_transcode_command` and
`_get_hls_transcode_command`. -/
def scaleFilterStr (maxW maxH : Nat) (full : Bool) : String :=
  "scale=" ++ squote ++ "min(" ++ natStr maxW ++ ",iw)" ++ squote ++ ":"
    ++ squote ++ "min(" ++ natStr maxH ++ ",ih)" ++ squote
    ++ ":force_original_aspect_ratio=decrease"
    ++ (if full then ":out_range=full" else "")

/-- The `color_flags` list: the output range tag always, the
colorspace/transfer/primaries tags only when the source reported them. -/
def colorFlags (output_color_range : String) (color_info : Option ColorInfo) :
    List String :=
  ["-color_range", output_color_range]
  ++ (match color_info with
      | none => []
      | some ci =>
        (match ci.color_space with | some v => ["-colorspace", v] | none => [])
        ++ (match ci.color_transfer with | some v => ["-color_trc", v] | none => [])
        ++ (match ci.color_primaries with | some v => ["-color_primaries", v] | none => []))

/-- `_get_transcode_command`: the full-range decision and the progressive
ffmpeg argument list. -/
def get_transcode_command (st : Settings) (input_path output_path : String)
    (transcode_config : Option TranscodeConfig) (use_gpu : Bool)
    (color_info : Option ColorInfo) : List String :=
  let use_gpu_transcoding := match transcode_config with
    | some c => c.use_gpu_transcoding
    | none => st.USE_GPU_TRANSCODING
  let max_width := match transcode_config with | some c => c.max_width | none => 1920
  let max_height := match transcode_config with | some c => c.max_height | none => 1080
  let audio_bitrate := match transcode_config with
    | some c => c.audio_bitrate | none => "192k"
  let is_full_range := match color_info with
    | none => false
    | some ci => ci.color_range = some "pc" || (ci.pix_fmt.getD "").startsWith "yuvj"
  let output_pix_fmt := if is_full_range then "yuvj420p" else "yuv420p"
  let output_color_range := if is_full_range then "pc" else "tv"
  let scale_filter := scaleFilterStr max_width max_height is_full_range
  let color_flags := colorFlags output_color_range color_info
  if use_gpu && use_gpu_transcoding then
    let nvenc_preset := match transcode_config with
      | some c => c.nvenc_preset | none => st.NVENC_PRESET
    let nvenc_cq := match transcode_config with
      | some c => c.nvenc_cq | none => st.NVENC_CQ
    let nvenc_rate_control := match transcode_config with
      | some c => c.nvenc_rate_control | none => st.NVENC_RATE_CONTROL
    let nvenc_max_bitrate := match transcode_config with
      | some c => c.nvenc_max_bitrate | none => st.NVENC_MAX_BITRATE
    let nvenc_buffer_size := match transcode_config with
      | some c => c.nvenc_buffer_size | none => st.NVENC_BUFFER_SIZE
    [st.FFMPEG_PATH, "-i", input_path, "-vf", scale_filter, "-c:v", "h264_nvenc",
     "-pix_fmt", output_pix_fmt, "-preset", nvenc_preset, "-rc", nvenc_rate_control,
     "-cq", natStr nvenc_cq, "-b:v", "0", "-maxrate", nvenc_max_bitrate,
     "-bufsize", nvenc_buffer_size]
    ++ color_flags
    ++ ["-c:a", "aac", "-b:a", audio_bitrate, "-movflags", "+faststart", "-y",
        output_path]
  else
    let cpu_preset := match transcode_config with
      | some c => c.cpu_preset | none => "medium"
    let cpu_crf := match transcode_config with | some c => c.cpu_crf | none => 18
    [st.FFMPEG_PATH, "-i", input_path, "-vf", scale_filter, "-c:v", "libx264",
     "-pix_fmt", output_pix_fmt, "-preset", cpu_preset, "-crf", natStr cpu_crf]
    ++ color_flags
    ++ ["-c:a", "aac", "-b:a", audio_bitrate, "-movflags", "+faststart", "-y",
        output_path]

/-- `_get_hls_transcode_command`: same color handling, HLS output settings. -/
def get_hls_transcode_command (st : Settings) (input_path output_dir : String)
    (transcode_config : Option TranscodeConfig) (use_gpu : Bool)
    (color_info : Option ColorInfo) : List String :=
  let use_gpu_transcoding := match transcode_config with
    | some c => c.use_gpu_transcoding
    | none => st.USE_GPU_TRANSCODING
  let max_width := match transcode_config with | some c => c.max_width | none => 1920
  let max_height := match transcode_config with | some c => c.max_height | none => 1080
  let audio_bitrate := match transcode_config with
    | some c => c.audio_bitrate | none => "192k"
  let is_full_range := match color_info with
    | none => false
    | some ci => ci.color_range = some "pc" || (ci.pix_fmt.getD "").startsWith "yuvj"
  let output_pix_fmt := if is_full_range then "yuvj420p" else "yuv420p"
  let output_color_range := if is_full_range then "pc" else "tv"
  let scale_filter := scaleFilterStr max_width max_height is_full_range
  let color_flags := colorFlags output_color_range color_info
  let hls_time := 4
  let manifest_path := output_dir ++ "/master.m3u8"
  let segment_pattern := output_dir ++ "/segment%03d.ts"
  let hlsTail := ["-c:a", "aac", "-b:a", audio_bitrate, "-f", "hls",
    "-hls_time", natStr hls_time, "-hls_list_size", "0", "-hls_segment_type",
    "mpegts", "-hls_segment_filename", segment_pattern, "-y", manifest_path]
  if use_gpu && use_gpu_transcoding then
    let nvenc_preset := match transcode_config with
      | some c => c.nvenc_preset | none => st.NVENC_PRESET
    let nvenc_cq := match transcode_config with
      | some c => c.nvenc_cq | none => st.NVENC_CQ
    let nvenc_rate_control := match transcode_config with
      | some c => c.nvenc_rate_control | none => st.NVENC_RATE_CONTROL
    let nvenc_max_bitrate := match transcode_config with
      | some c => c.nvenc_max_bitrate | none => st.NVENC_MAX_BITRATE
    let nvenc_buffer_size := match transcode_config with
      | some c => c.nvenc_buffer_size | none => st.NVENC_BUFFER_SIZE
    [st.FFMPEG_PATH, "-i", input_path, "-vf", scale_filter, "-c:v", "h264_nvenc",
     "-pix_fmt", output_pix_fmt, "-preset", nvenc_preset, "-rc", nvenc_rate_control,
     "-cq", natStr nvenc_cq, "-b:v", "0", "-maxrate", nvenc_max_bitrate,
     "-bufsize", nvenc_buffer_size]
    ++ color_flags ++ hlsTail
  else
    let cpu_preset := match transcode_config with
      | some c => c.cpu_preset | none => "medium"
    let cpu_crf := match transcode_config with | some c => c.cpu_crf | none => 18
    [st.FFMPEG_PATH, "-i", input_path, "-vf", scale_filter, "-c:v", "libx264",
     "-pix_fmt", output_pix_fmt, "-preset", cpu_preset, "-crf", natStr cpu_crf]
    ++ color_flags ++ hlsTail

/-! ### Transcode executor -/

/-- Outcome of one encoder subprocess run, supplied by the environment:
exit with a code and captured stderr, expiry of the `asyncio.wait_for`
timeout, or some other raised exception. -/
inductive RunOutcome where
  | completed (returncode : Int) (stderr : String)
  | timedOut
  | raised (msg : String)
deriving Repr, DecidableEq

/-- A Python exception escaping a modelled function. -/
inductive PyError where
  | timeoutError
  | exn (msg : String)
deriving Repr, DecidableEq

/-- The environment for one `transcode_video`/`transcode_video_hls` call:
the outcome of the GPU run and of each successive CPU run. The argument of
`cpu` counts CPU invocations within the call (0 = first CPU run). -/
structure ExecEnv where
  gpu : RunOutcome
  cpu : Nat → RunOutcome

/-- Observable actions, recorded in order of occurrence. -/
inductive Effect where
  | mkdirDir (path : String)
  | runGpu
  | runCpu (attempt : Nat)
  | copyFile (src dst : String)
  | extractThumb (src : String)
deriving Repr, DecidableEq

/-- `error_msg = stderr.decode()[-500:] if stderr else "Unknown error"`. -/
def errMsgOf (stderr : String) : String :=
  if stderr = "" then "Unknown error" else lastN 500 stderr

/-- `_transcode_cpu_fallback` / `_transcode_hls_cpu_fallback`: runs the CPU
command; non-zero exit yields `(False, message)`, a timeout or other raised
exception propagates. `failPre` is the error-message prefix of the variant. -/
def transcode_cpu_fallback (env : ExecEnv) (failPre : String) (attempt : Nat) :
    Except PyError (Bool × String) × List Effect :=
  match env.cpu attempt with
  | RunOutcome.completed rc stderr =>
    (if rc ≠ 0 then Except.ok (false, failPre ++ errMsgOf stderr)
     else Except.ok (true, ""), [Effect.runCpu attempt])
  | RunOutcome.timedOut => (Except.error PyError.timeoutError, [Effect.runCpu attempt])
  | RunOutcome.raised m => (Except.error (PyError.exn m), [Effect.runCpu attempt])

/-- `"nvenc" in str(e).lower() or "cuda" in str(e).lower()`. -/
def isGpuFault (m : String) : Bool :=
  hasSub (lowerStr m) "nvenc" || hasSub (lowerStr m) "cuda"

/-- Shared control flow of `transcode_video` and `transcode_video_hls`:
`try` body (GPU run when enabled, else CPU; GPU non-zero exit falls back to
CPU inside the `try`), `except TimeoutError` handler running one more CPU
fallback, and `except Exception` handler checking for a CUDA/NVENC fault.
The built ffmpeg commands do not influence the modelled outcomes, which come
from `env`. -/
def transcodeGeneric (st : Settings) (transcode_config : Option TranscodeConfig)
    (env : ExecEnv) (failPre errPre : String) :
    Except PyError (Bool × String) × List Effect :=
  let use_gpu := match transcode_config with
    | some c => c.use_gpu_transcoding
    | none => st.USE_GPU_TRANSCODING
  let tryRes : Except PyError (Bool × String) × List Effect × Nat :=
    if use_gpu then
      match env.gpu with
      | RunOutcome.completed rc _ =>
        if rc = 0 then (Except.ok (true, ""), ([Effect.runGpu], 0))
        else
          let f := transcode_cpu_fallback env failPre 0
          (f.1, (Effect.runGpu :: f.2, 1))
      | RunOutcome.timedOut => (Except.error PyError.timeoutError, ([Effect.runGpu], 0))
      | RunOutcome.raised m => (Except.error (PyError.exn m), ([Effect.runGpu], 0))
    else
      let f := transcode_cpu_fallback env failPre 0
      (f.1, (f.2, 1))
  match tryRes with
  | (Except.ok r, tr, _) => (Except.ok r, tr)
  | (Except.error PyError.timeoutError, tr, k) =>
    let f := transcode_cpu_fallback env failPre k
    (f.1, tr ++ f.2)
  | (Except.error (PyError.exn m), tr, k) =>
    if use_gpu && isGpuFault m then
      let f := transcode_cpu_fallback env failPre k
      (f.1, tr ++ f.2)
    else (Except.ok (false, errPre ++ m), tr)

/-- `transcode_video` (progressive executor). -/
def transcode_video (st : Settings) (transcode_config : Option TranscodeConfig)
    (env : ExecEnv) : Except PyError (Bool × String) × List Effect :=
  transcodeGeneric st transcode_config env "CPU transcoding failed: "
    "Transcoding error: "

/-- `transcode_video_hls` (segmented executor): creates the output directory
first (`output_dir.mkdir(parents=True, exist_ok=True)`), then runs the same
GPU/CPU retry structure. -/
def transcode_video_hls (st : Settings) (transcode_config : Option TranscodeConfig)
    (env : ExecEnv) (output_dir : String) :
    Except PyError (Bool × String) × List Effect :=
  let c := transcodeGeneric st transcode_config env "CPU HLS transcoding failed: "
    "HLS transcoding error: "
  (c.1, Effect.mkdirDir output_dir :: c.2)

/-! ### Probes and the orchestrator -/

/-- Outcome of one ffprobe run: completion with exit code and stdout, or an
abort (timeout / other exception). -/
inductive ProbeRun where
  | completed (returncode : Int) (stdout : String)
  | aborted
deriving Repr, DecidableEq

/-- `needs_transcoding`: `True` unless the probed codec is H.264, the file
suffix is `.mp4`, and the probed pixel format is 8-bit; probe failures mean
`True` (transcode to be safe). `p1` is the codec probe, `p2` the pixel-format
probe (whose exit code the code does not check). -/
def needs_transcoding (input_path : String) (p1 p2 : ProbeRun) : Bool :=
  match p1 with
  | ProbeRun.aborted => true
  | ProbeRun.completed rc out1 =>
    if rc ≠ 0 then true
    else
      let codec := lowerStr (trimStr out1)
      match p2 with
      | ProbeRun.aborted => true
      | ProbeRun.completed _ out2 =>
        let pix_fmt := lowerStr (trimStr out2)
        let is_8bit := pix_fmt ≠ "" && !(hasSub pix_fmt "10") && !(hasSub pix_fmt "12")
        let is_h264 := codec = "h264" || codec = "libx264" || codec = "avc"
        let is_mp4 := lowerStr (suffixOf (pathName input_path)) = ".mp4"
        !(is_h264 && is_mp4 && is_8bit)

/-- A metadata dictionary value: number or string. -/
inductive MVal where
  | i (n : Int)
  | s (t : String)
deriving Repr, DecidableEq

/-- What the metadata ffprobe reported (after JSON parsing): `ok = false`
models a failed probe (non-zero exit, timeout or exception), in which case
`get_video_metadata` returns the empty dictionary. -/
structure ProbeData where
  ok : Bool := true
  duration : Option Int := none
  width : Option Int := none
  height : Option Int := none
  codec_name : Option String := none
  color_range : Option String := none
  color_space : Option String := none
  color_transfer : Option String := none
  color_primaries : Option String := none
  pix_fmt : Option String := none
deriving Repr, DecidableEq

/-- `get_video_metadata`: the returned dictionary — note the probed codec name
is stored under the key `"codec"`. -/
def get_video_metadata (p : ProbeData) : List (String × Option MVal) :=
  if p.ok then
    [("duration", p.duration.map MVal.i),
     ("width", p.width.map MVal.i),
     ("height", p.height.map MVal.i),
     ("codec", p.codec_name.map MVal.s),
     ("color_range", p.color_range.map MVal.s),
     ("color_space", p.color_space.map MVal.s),
     ("color_transfer", p.color_transfer.map MVal.s),
     ("color_primaries", p.color_primaries.map MVal.s),
     ("pix_fmt", p.pix_fmt.map MVal.s)]
  else []

/-- Python `dict.get(key)`: `None` both for a missing key and a `None` value. -/
def dictGet (md : List (String × Option MVal)) (k : String) : Option MVal :=
  match md.lookup k with
  | some v => v
  | none => none

/-- Coerce a metadata value to the string the color info dictionary holds. -/
def asStr : Option MVal → Option String
  | some (MVal.s t) => some t
  | _ => none

/-- The `result` dictionary of `process_video_file`. -/
structure PResult where
  success : Bool := false
  error : Option String := none
  duration : Option MVal := none
  width : Option MVal := none
  height : Option MVal := none
  codec : Option MVal := none
  output_format : String := "progressive"
deriving Repr, DecidableEq

/-- Stored files, `path ↦ contents` (same representation as `Session`). -/
abbrev FileMap := List (String × Bytes)

/-- Environment of one `process_video_file` call. -/
structure OrchEnv where
  validateOk : Bool := true
  validateErr : String := ""
  probe : ProbeData := {}
  exec : ExecEnv
  ntProbe1 : ProbeRun := ProbeRun.aborted
  ntProbe2 : ProbeRun := ProbeRun.aborted
  manifestExists : Bool := true
  copyFailMsg : Option String := none
  encodedBytes : Bytes := []

/-- Result of one `process_video_file` call: the returned dictionary (or the
propagated exception), the recorded actions, and the file store. -/
structure OrchOutput where
  result : Except PyError PResult
  trace : List Effect
  files : FileMap
deriving Repr

/-- `hls_dir = output_path.parent / output_path.stem`. -/
def hlsDirOf (output_path : String) : String :=
  pathParent output_path ++ "/" ++ stemOf (pathName output_path)

/-- The result dictionary after step 2 (metadata extraction) of
`process_video_file`: success not yet set, the four metadata fields filled
from the metadata dictionary (`codec` read under the key `"codec_name"`,
exactly as the code does). -/
def baseResult (p : ProbeData) : PResult :=
  let md := get_video_metadata p
  { duration := dictGet md "duration", width := dictGet md "width",
    height := dictGet md "height", codec := dictGet md "codec_name" }

/-- `process_video_file`: validate, probe metadata, branch on the configured
output format (segmented vs progressive with the no-op copy), extract a
thumbnail (non-fatal), and return the result dictionary. On the progressive
path a successful encode stores `env.encodedBytes` at the output path; the
no-op copy stores the input bytes. -/
def process_video_file (st : Settings) (input_path output_path : String)
    (transcode_config : Option TranscodeConfig) (env : OrchEnv)
    (files : FileMap) : OrchOutput :=
  if !env.validateOk then
    { result := Except.ok { error := some env.validateErr }, trace := [],
      files := files }
  else
    let r1 : PResult := baseResult env.probe
    let video_output_format := match transcode_config with
      | some c => c.video_output_format
      | none => "hls"
    if video_output_format = "hls" then
      let hls_dir := hlsDirOf output_path
      let t := transcode_video_hls st transcode_config env.exec hls_dir
      match t.1 with
      | Except.error e =>
        { result := Except.error e, trace := Effect.mkdirDir hls_dir :: t.2,
          files := files }
      | Except.ok (success, error_msg) =>
        if !success then
          { result := Except.ok { r1 with error := some error_msg },
            trace := Effect.mkdirDir hls_dir :: t.2, files := files }
        else
          let thumbTrace :=
            if env.manifestExists then [Effect.extractThumb input_path] else []
          { result := Except.ok { r1 with success := true, output_format := "hls" },
            trace := Effect.mkdirDir hls_dir :: t.2 ++ thumbTrace, files := files }
    else
      if needs_transcoding input_path env.ntProbe1 env.ntProbe2 then
        let t := transcode_video st transcode_config env.exec
        match t.1 with
        | Except.error e => { result := Except.error e, trace := t.2, files := files }
        | Except.ok (success, error_msg) =>
          if !success then
            { result := Except.ok { r1 with error := some error_msg },
              trace := t.2, files := files }
          else
            { result :=
                Except.ok { r1 with success := true, output_format := "progressive" },
              trace := t.2 ++ [Effect.extractThumb output_path],
              files := assocSet files output_path env.encodedBytes }
      else
        match env.copyFailMsg with
        | some m =>
          { result := Except.ok { r1 with error := some ("Failed to copy video: " ++ m) },
            trace := [], files := files }
        | none =>
          let files2 := match assocGet files input_path with
            | some bs => assocSet files output_path bs
            | none => files
          { result :=
              Except.ok { r1 with success := true, output_format := "progressive" },
            trace := [Effect.copyFile input_path output_path,
              Effect.extractThumb output_path],
            files := files2 }

/-- Does this effect run an encoder process? -/
def isRun : Effect → Bool
  | Effect.runGpu => true
  | Effect.runCpu _ => true
  | _ => false

/-- No encoder run occurs before the first `mkdir` of `d` in the trace. -/
def mkdirBeforeRuns (d : String) (tr : List Effect) : Bool :=
  (tr.takeWhile (fun e => e ≠ Effect.mkdirDir d)).all (fun e => !isRun e)

/-! ### Executor lemmas -/

theorem transcodeGeneric_gpu_fail_cpu_ok (st : Settings) (c : TranscodeConfig)
    (env : ExecEnv) (failPre errPre : String) (rcG : Int) (sG sC : String)
    (hOn : c.use_gpu_transcoding = true)
    (hg : env.gpu = RunOutcome.completed rcG sG) (hrc : rcG ≠ 0)
    (hc : env.cpu 0 = RunOutcome.completed 0 sC) :
    transcodeGeneric st (some c) env failPre errPre
      = (Except.ok (true, ""), [Effect.runGpu, Effect.runCpu 0]) := by
  unfold transcodeGeneric transcode_cpu_fallback
  rw [hg, hc]
  simp [hOn, hrc]

theorem transcode_video_gpu_fail_cpu_ok (st : Settings) (c : TranscodeConfig)
    (env : ExecEnv) (rcG : Int) (sG sC : String)
    (hOn : c.use_gpu_transcoding = true)
    (hg : env.gpu = RunOutcome.completed rcG sG) (hrc : rcG ≠ 0)
    (hc : env.cpu 0 = RunOutcome.completed 0 sC) :
    transcode_video st (some c) env
      = (Except.ok (true, ""), [Effect.runGpu, Effect.runCpu 0]) := by
  unfold transcode_video
  exact transcodeGeneric_gpu_fail_cpu_ok st c env _ _ rcG sG sC hOn hg hrc hc

theorem transcode_video_hls_gpu_fail_cpu_ok (st : Settings) (c : TranscodeConfig)
    (env : ExecEnv) (d : String) (rcG : Int) (sG sC : String)
    (hOn : c.use_gpu_transcoding = true)
    (hg : env.gpu = RunOutcome.completed rcG sG) (hrc : rcG ≠ 0)
    (hc : env.cpu 0 = RunOutcome.completed 0 sC) :
    transcode_video_hls st (some c) env d
      = (Except.ok (true, ""), [Effect.mkdirDir d, Effect.runGpu, Effect.runCpu 0]) := by
  unfold transcode_video_hls
  rw [transcodeGeneric_gpu_fail_cpu_ok st c env _ _ rcG sG sC hOn hg hrc hc]

/-- C1: for a job whose config enables GPU transcoding, when the GPU encoder
process exits non-zero and the subsequent CPU encoder process exits zero,
both transcode executors return `(True, "")`, and `process_video_file`
returns success with the configured output format, carrying no error text. -/
theorem gpu_to_cpu_fallback_transparent (st : Settings) (c : TranscodeConfig)
    (env : ExecEnv) (rcG : Int) (sG sC : String) (inP outP : String)
    (oenv : OrchEnv) (files : FileMap)
    (hOn : c.use_gpu_transcoding = true)
    (hg : env.gpu = RunOutcome.completed rcG sG) (hrc : rcG ≠ 0)
    (hc : env.cpu 0 = RunOutcome.completed 0 sC)
    (hexec : oenv.exec = env)
    (hval : oenv.validateOk = true)
    (hfmt : c.video_output_format = "hls"
      ∨ (c.video_output_format = "progressive"
          ∧ needs_transcoding inP oenv.ntProbe1 oenv.ntProbe2 = true)) :
    (transcode_video st (some c) env).1 = Except.ok (true, "")
    ∧ (transcode_video_hls st (some c) env (hlsDirOf outP)).1 = Except.ok (true, "")
    ∧ ∃ r : PResult,
        (process_video_file st inP outP (some c) oenv files).result = Except.ok r
        ∧ r.success = true ∧ r.error = none
        ∧ r.output_format = c.video_output_format := by
  refine ⟨by rw [transcode_video_gpu_fail_cpu_ok st c env rcG sG sC hOn hg hrc hc],
    by rw [transcode_video_hls_gpu_fail_cpu_ok st c env _ rcG sG sC hOn hg hrc hc], ?_⟩
  rcases hfmt with hf | ⟨hf, hneeds⟩
  · refine ⟨{ baseResult oenv.probe with success := true, output_format := "hls" },
      ?_, rfl, rfl, by rw [hf]⟩
    simp only [process_video_file, hval, hf, hexec, Bool.not_true, if_pos rfl,
      transcode_video_hls_gpu_fail_cpu_ok st c env _ rcG sG sC hOn hg hrc hc]
    simp
  · refine ⟨{ baseResult oenv.probe with success := true, output_format := "progressive" },
      ?_, rfl, rfl, by rw [hf]⟩
    simp only [process_video_file, hval, hf, hexec, hneeds,
      transcode_video_gpu_fail_cpu_ok st c env rcG sG sC hOn hg hrc hc]
    simp

/-- Concrete executor environment: GPU exits 1, every CPU run exits 0. -/
def c1exec : ExecEnv :=
  { gpu := RunOutcome.completed 1 "gpu failure", cpu := fun _ => RunOutcome.completed 0 "" }

/-- Concrete orchestrator environment around `c1exec`. -/
def c1env : OrchEnv := { exec := c1exec }

/-- Witness for `gpu_to_cpu_fallback_transparent` at a concrete environment. -/
theorem gpu_to_cpu_fallback_transparent_witness :
    (({ use_gpu_transcoding := true } : TranscodeConfig).use_gpu_transcoding = true)
    ∧ c1exec.gpu = RunOutcome.completed 1 "gpu failure"
    ∧ ((1 : Int) ≠ 0)
    ∧ c1exec.cpu 0 = RunOutcome.completed 0 ""
    ∧ ((transcode_video {} (some { use_gpu_transcoding := true }) c1exec).1
        = Except.ok (true, "")
      ∧ (transcode_video_hls {} (some { use_gpu_transcoding := true }) c1exec
          (hlsDirOf "store/video.mp4")).1 = Except.ok (true, "")
      ∧ ∃ r : PResult,
          (process_video_file {} "in.mp4" "store/video.mp4"
            (some { use_gpu_transcoding := true }) c1env []).result = Except.ok r
          ∧ r.success = true ∧ r.error = none
          ∧ r.output_format
              = ({ use_gpu_transcoding := true } : TranscodeConfig).video_output_format) :=
  ⟨rfl, rfl, by decide, rfl,
    gpu_to_cpu_fallback_transparent {} { use_gpu_transcoding := true } c1exec 1
      "gpu failure" "" "in.mp4" "store/video.mp4" c1env [] rfl rfl (by decide) rfl
      rfl rfl (Or.inl rfl)⟩

/-- Environment where the GPU run and every CPU run time out. -/
def envBothTimeout : ExecEnv :=
  { gpu := RunOutcome.timedOut, cpu := fun _ => RunOutcome.timedOut }

/-- Environment where the GPU exits 1, the first CPU run times out, and the
second CPU run exits 0. -/
def envGpuFailCpuTimeoutThenOk : ExecEnv :=
  { gpu := RunOutcome.completed 1 "gpu failure",
    cpu := fun k => if k = 0 then RunOutcome.timedOut else RunOutcome.completed 0 "" }

/-- C4 counterexample: a timeout on the CPU path is not terminal with
`(success=False, message)`. When both the GPU and the CPU command time out,
`transcode_video` propagates `TimeoutError` to its caller instead of
returning; after a GPU non-zero exit, a first-CPU-run timeout triggers a
second CPU attempt — a retry — which here succeeds, so the call returns
`(True, "")` after three encoder runs; and on the direct CPU path (GPU
transcoding disabled, the default config), a first-CPU-run timeout is
likewise retried (returning `(True, "")` after two CPU runs), while both CPU
runs timing out propagates `TimeoutError` there too. -/
theorem cpu_timeout_not_terminal_cex :
    (transcode_video {} (some { use_gpu_transcoding := true }) envBothTimeout).1
      = Except.error PyError.timeoutError
    ∧ transcode_video {} (some { use_gpu_transcoding := true }) envGpuFailCpuTimeoutThenOk
      = (Except.ok (true, ""), [Effect.runGpu, Effect.runCpu 0, Effect.runCpu 1])
    ∧ transcode_video {} (some {}) envGpuFailCpuTimeoutThenOk
      = (Except.ok (true, ""), [Effect.runCpu 0, Effect.runCpu 1])
    ∧ (transcode_video {} (some {}) envBothTimeout).1
      = Except.error PyError.timeoutError :=
  ⟨rfl, rfl, rfl, rfl⟩

/-- C4 (amended): a CPU-run timeout inside the `try` block is caught and
retried, on both paths. With GPU transcoding enabled, a GPU-run timeout falls
back to the CPU command and the first CPU attempt decides the call (its own
timeout propagating as `TimeoutError`, not returned as a failure tuple); a
timeout of the CPU command run after a GPU non-zero exit triggers one further
CPU attempt, which then decides the call in the same way. On the direct CPU
path (GPU transcoding disabled), a timeout of the CPU run started inside the
`try` triggers one further CPU attempt — a retry — and a timeout of that
second attempt propagates `TimeoutError` to the caller unhandled. -/
theorem cpu_timeout_retry_behavior (st : Settings) (c : TranscodeConfig)
    (env : ExecEnv) :
    (c.use_gpu_transcoding = true → env.gpu = RunOutcome.timedOut →
      transcode_video st (some c) env
        = ((transcode_cpu_fallback env "CPU transcoding failed: " 0).1,
           Effect.runGpu :: (transcode_cpu_fallback env "CPU transcoding failed: " 0).2))
    ∧ (c.use_gpu_transcoding = true →
        ∀ (rc : Int) (sG : String), env.gpu = RunOutcome.completed rc sG → rc ≠ 0 →
        env.cpu 0 = RunOutcome.timedOut →
        transcode_video st (some c) env
          = ((transcode_cpu_fallback env "CPU transcoding failed: " 1).1,
             [Effect.runGpu, Effect.runCpu 0]
               ++ (transcode_cpu_fallback env "CPU transcoding failed: " 1).2))
    ∧ (c.use_gpu_transcoding = true →
        env.gpu = RunOutcome.timedOut → env.cpu 0 = RunOutcome.timedOut →
        (transcode_video st (some c) env).1 = Except.error PyError.timeoutError)
    ∧ (c.use_gpu_transcoding = false → env.cpu 0 = RunOutcome.timedOut →
        transcode_video st (some c) env
          = ((transcode_cpu_fallback env "CPU transcoding failed: " 1).1,
             Effect.runCpu 0
               :: (transcode_cpu_fallback env "CPU transcoding failed: " 1).2))
    ∧ (c.use_gpu_transcoding = false → env.cpu 0 = RunOutcome.timedOut →
        env.cpu 1 = RunOutcome.timedOut →
        (transcode_video st (some c) env).1 = Except.error PyError.timeoutError) := by
  refine ⟨?_, ?_, ?_, ?_, ?_⟩
  · intro hOn hg
    unfold transcode_video transcodeGeneric
    rw [hg]
    simp only [hOn]
    cases hc0 : env.cpu 0 <;> simp [transcode_cpu_fallback, hc0]
  · intro hOn rc sG hg hrc hc0
    unfold transcode_video transcodeGeneric
    rw [hg]
    simp only [hOn]
    rw [show transcode_cpu_fallback env "CPU transcoding failed: " 0
          = (Except.error PyError.timeoutError, [Effect.runCpu 0]) by
        unfold transcode_cpu_fallback; rw [hc0]]
    simp only [hrc, if_neg hrc]
    cases hc1 : env.cpu 1 <;> simp [transcode_cpu_fallback, hc1, hrc]
  · intro hOn hg hc0
    unfold transcode_video transcodeGeneric
    rw [hg]
    simp only [hOn]
    simp [transcode_cpu_fallback, hc0]
  · intro hOff hc0
    unfold transcode_video transcodeGeneric
    simp only [hOff]
    rw [show transcode_cpu_fallback env "CPU transcoding failed: " 0
          = (Except.error PyError.timeoutError, [Effect.runCpu 0]) by
        unfold transcode_cpu_fallback; rw [hc0]]
    cases hc1 : env.cpu 1 <;> simp [transcode_cpu_fallback, hc1]
  · intro hOff hc0 hc1
    unfold transcode_video transcodeGeneric
    simp only [hOff]
    simp [transcode_cpu_fallback, hc0, hc1]

/-- Witness for `cpu_timeout_retry_behavior`, applied both to a GPU-enabled
config and to the default (GPU-disabled, direct CPU path) config at concrete
environments: each flag hypothesis and every run-outcome hypothesis of the
exercised conjuncts is discharged concretely. -/
theorem cpu_timeout_retry_behavior_witness :
    ((({ use_gpu_transcoding := true } : TranscodeConfig).use_gpu_transcoding = true
      → envBothTimeout.gpu = RunOutcome.timedOut →
        transcode_video {} (some { use_gpu_transcoding := true }) envBothTimeout
          = ((transcode_cpu_fallback envBothTimeout "CPU transcoding failed: " 0).1,
             Effect.runGpu
               :: (transcode_cpu_fallback envBothTimeout "CPU transcoding failed: " 0).2))
      ∧ (transcode_video {} (some { use_gpu_transcoding := true }) envBothTimeout).1
          = Except.error PyError.timeoutError)
    ∧ ((({} : TranscodeConfig).use_gpu_transcoding = false →
        envGpuFailCpuTimeoutThenOk.cpu 0 = RunOutcome.timedOut →
        transcode_video {} (some {}) envGpuFailCpuTimeoutThenOk
          = ((transcode_cpu_fallback envGpuFailCpuTimeoutThenOk
                "CPU transcoding failed: " 1).1,
             Effect.runCpu 0
               :: (transcode_cpu_fallback envGpuFailCpuTimeoutThenOk
                    "CPU transcoding failed: " 1).2))
      ∧ (transcode_video {} (some {}) envBothTimeout).1
          = Except.error PyError.timeoutError) :=
  ⟨⟨(cpu_timeout_retry_behavior {} { use_gpu_transcoding := true } envBothTimeout).1,
    (cpu_timeout_retry_behavior {} { use_gpu_transcoding := true }
        envBothTimeout).2.2.1 rfl rfl rfl⟩,
   ⟨(cpu_timeout_retry_behavior {} {} envGpuFailCpuTimeoutThenOk).2.2.2.1,
    (cpu_timeout_retry_behavior {} {} envBothTimeout).2.2.2.2 rfl rfl rfl⟩⟩

/-- Orchestrator environment for the segmented counterexample: encoder (CPU
path) exits 0, but no manifest file appears at the designated path. -/
def c5env : OrchEnv :=
  { exec := { gpu := RunOutcome.raised "unused",
              cpu := fun _ => RunOutcome.completed 0 "" },
    manifestExists := false }

/-- C5 counterexample: the segmented job is reported successful even though
the manifest file is absent at the designated output path — success is not
decided by manifest presence. -/
theorem hls_success_without_manifest_cex :
    c5env.manifestExists = false
    ∧ (process_video_file {} "video.mp4" "store/video.mp4" (some {}) c5env []).result
        = Except.ok
            { success := true, error := none, duration := none, width := none,
              height := none, codec := none, output_format := "hls" } :=
  ⟨rfl, rfl⟩

theorem mkdirBeforeRuns_cons (d : String) (tr : List Effect) :
    mkdirBeforeRuns d (Effect.mkdirDir d :: tr) = true := by
  simp [mkdirBeforeRuns, List.takeWhile]

theorem baseResult_success (p : ProbeData) : (baseResult p).success = false := rfl

/-- C5 (amended): for a segmented job, the output directory is created before
any encoder run; the job is reported successful if and only if the (possibly
CPU-fallback) encoder invocation returned success — the exit status of the
encoder, not manifest presence, decides success; manifest presence only
selects whether a thumbnail is extracted, and the returned result dictionary
is unchanged by it. -/
theorem hls_success_signal (st : Settings) (inP outP : String)
    (cfg : Option TranscodeConfig) (env : OrchEnv) (files : FileMap)
    (hfmt : (match cfg with
      | some c => c.video_output_format
      | none => "hls") = "hls")
    (hval : env.validateOk = true) :
    mkdirBeforeRuns (hlsDirOf outP)
      ((process_video_file st inP outP cfg env files).trace) = true
    ∧ (∀ r : PResult,
        (process_video_file st inP outP cfg env files).result = Except.ok r →
        (r.success = true
          ↔ ∃ s, (transcode_video_hls st cfg env.exec (hlsDirOf outP)).1
              = Except.ok (true, s)))
    ∧ (∀ b1 b2 : Bool,
        (process_video_file st inP outP cfg { env with manifestExists := b1 } files).result
          = (process_video_file st inP outP cfg
              { env with manifestExists := b2 } files).result) := by
  have hunf : ∀ (e : OrchEnv), e.validateOk = true →
      e.exec = env.exec →
      process_video_file st inP outP cfg e files
        = (let r1 := baseResult e.probe
           let hls_dir := hlsDirOf outP
           let t := transcode_video_hls st cfg env.exec hls_dir
           match t.1 with
           | Except.error er =>
             { result := Except.error er, trace := Effect.mkdirDir hls_dir :: t.2,
               files := files }
           | Except.ok (success, error_msg) =>
             if !success then
               { result := Except.ok { r1 with error := some error_msg },
                 trace := Effect.mkdirDir hls_dir :: t.2, files := files }
             else
               let thumbTrace :=
                 if e.manifestExists then [Effect.extractThumb inP] else []
               { result := Except.ok { r1 with success := true, output_format := "hls" },
                 trace := Effect.mkdirDir hls_dir :: t.2 ++ thumbTrace,
                 files := files }) := by
    intro e hv hx
    unfold process_video_file
    rw [hv, hx, hfmt]
    simp
  have h0 := hunf env hval rfl
  refine ⟨?_, ?_, ?_⟩
  · rw [h0]
    rcases htc : (transcode_video_hls st cfg env.exec (hlsDirOf outP)).1
      with er | ⟨suc, msg⟩
    · simp [htc, mkdirBeforeRuns_cons]
    · cases suc
      · simp [htc, mkdirBeforeRuns_cons]
      · simp [htc, mkdirBeforeRuns_cons]
  · intro r hr
    rw [h0] at hr
    rcases htc : (transcode_video_hls st cfg env.exec (hlsDirOf outP)).1
      with er | ⟨suc, msg⟩
    · simp [htc] at hr
    · cases suc
      · simp [htc] at hr
        constructor
        · intro htrue
          rw [← hr] at htrue
          simp [baseResult_success] at htrue
        · rintro ⟨s, hs⟩
          simp at hs
      · simp [htc] at hr
        constructor
        · intro _
          exact ⟨msg, rfl⟩
        · intro _
          rw [← hr]
  · intro b1 b2
    rw [hunf { env with manifestExists := b1 } hval rfl,
        hunf { env with manifestExists := b2 } hval rfl]
    rcases htc : (transcode_video_hls st cfg env.exec (hlsDirOf outP)).1
      with er | ⟨suc, msg⟩
    · simp [htc]
    · cases suc
      · simp [htc]
      · simp [htc]

/-- Witness for `hls_success_signal` at a concrete environment. -/
theorem hls_success_signal_witness :
    ((match some ({} : TranscodeConfig) with
      | some c => c.video_output_format
      | none => "hls") = "hls")
    ∧ c5env.validateOk = true
    ∧ (mkdirBeforeRuns (hlsDirOf "store/video.mp4")
        ((process_video_file {} "video.mp4" "store/video.mp4" (some {})
          c5env []).trace) = true
      ∧ (∀ r : PResult,
          (process_video_file {} "video.mp4" "store/video.mp4" (some {})
            c5env []).result = Except.ok r →
          (r.success = true
            ↔ ∃ s, (transcode_video_hls {} (some {}) c5env.exec
                (hlsDirOf "store/video.mp4")).1 = Except.ok (true, s)))
      ∧ (∀ b1 b2 : Bool,
          (process_video_file {} "video.mp4" "store/video.mp4" (some {})
            { c5env with manifestExists := b1 } []).result
            = (process_video_file {} "video.mp4" "store/video.mp4" (some {})
                { c5env with manifestExists := b2 } []).result)) :=
  ⟨rfl, rfl,
    hls_success_signal {} "video.mp4" "store/video.mp4" (some {}) c5env [] rfl rfl⟩

theorem transcode_cpu_fallback_trace (env : ExecEnv) (p : String) (k : Nat) :
    (transcode_cpu_fallback env p k).2 = [Effect.runCpu k] := by
  unfold transcode_cpu_fallback
  rcases env.cpu k with ⟨rc, s⟩ | _ | m <;> rfl

theorem transcodeGeneric_trace_has_run (st : Settings) (cfg : Option TranscodeConfig)
    (env : ExecEnv) (p1 p2 : String) :
    (transcodeGeneric st cfg env p1 p2).2.any isRun = true := by
  have hfb : ∀ k, (transcode_cpu_fallback env p1 k).2 = [Effect.runCpu k] :=
    transcode_cpu_fallback_trace env p1
  unfold transcodeGeneric
  rcases cfg with _ | c
  · by_cases hb : st.USE_GPU_TRANSCODING = true
    · rcases hg : env.gpu with ⟨rc, s⟩ | _ | m
      · by_cases hrc : rc = 0
        · simp [hb, hg, hrc, isRun]
        · rcases hf1 : (transcode_cpu_fallback env p1 0).1 with e | r
          · rcases e with _ | m2
            · simp [hb, hg, hrc, hf1, hfb, isRun]
            · by_cases hm : isGpuFault m2
              · simp [hb, hg, hrc, hf1, hfb, isRun, hm]
              · simp [hb, hg, hrc, hf1, hfb, isRun, hm]
          · simp [hb, hg, hrc, hf1, hfb, isRun]
      · simp [hb, hg, hfb, isRun]
      · by_cases hm : isGpuFault m
        · simp [hb, hg, hfb, isRun, hm]
        · simp [hb, hg, hfb, isRun, hm]
    · rcases hf1 : (transcode_cpu_fallback env p1 0).1 with e | r
      · rcases e with _ | m2
        · simp [hb, hf1, hfb, isRun]
        · simp [hb, hf1, hfb, isRun]
      · simp [hb, hf1, hfb, isRun]
  · by_cases hb : c.use_gpu_transcoding = true
    · rcases hg : env.gpu with ⟨rc, s⟩ | _ | m
      · by_cases hrc : rc = 0
        · simp [hb, hg, hrc, isRun]
        · rcases hf1 : (transcode_cpu_fallback env p1 0).1 with e | r
          · rcases e with _ | m2
            · simp [hb, hg, hrc, hf1, hfb, isRun]
            · by_cases hm : isGpuFault m2
              · simp [hb, hg, hrc, hf1, hfb, isRun, hm]
              · simp [hb, hg, hrc, hf1, hfb, isRun, hm]
          · simp [hb, hg, hrc, hf1, hfb, isRun]
      · simp [hb, hg, hfb, isRun]
      · by_cases hm : isGpuFault m
        · simp [hb, hg, hfb, isRun, hm]
        · simp [hb, hg, hfb, isRun, hm]
    · rcases hf1 : (transcode_cpu_fallback env p1 0).1 with e | r
      · rcases e with _ | m2
        · simp [hb, hf1, hfb, isRun]
        · simp [hb, hf1, hfb, isRun]
      · simp [hb, hf1, hfb, isRun]

/-- Orchestrator environment whose metadata probe succeeds and reports
codec name h264, duration 12s, 1920x1080. -/
def c7env : OrchEnv :=
  { probe := { duration := some 12, width := some 1920, height := some 1080,
               codec_name := some "h264" },
    exec := { gpu := RunOutcome.raised "unused",
              cpu := fun _ => RunOutcome.completed 0 "" } }

/-- C7: evaluation at the failing input. The metadata probe succeeded and its
dictionary stores the probed codec name under the key `"codec"`, yet the
orchestrator reads `metadata.get("codec_name")`, so the returned result's
`codec` field is `None` while duration/width/height are carried through. -/
theorem metadata_codec_key_mismatch :
    dictGet (get_video_metadata c7env.probe) "codec" = some (MVal.s "h264")
    ∧ dictGet (get_video_metadata c7env.probe) "codec_name" = none
    ∧ (process_video_file {} "video.mp4" "store/video.mp4" (some {}) c7env []).result
        = Except.ok
            { success := true, error := none, duration := some (MVal.i 12),
              width := some (MVal.i 1920), height := some (MVal.i 1080),
              codec := none, output_format := "hls" } :=
  ⟨rfl, rfl, rfl⟩

/-- C8: no-op copy invariant. Conjunct 1 characterizes the code's
"needs transcoding" decision as the three spec conditions (H.264 codec,
`.mp4` suffix, 8-bit pixel format) given successful probes; conjunct 2:
compatible inputs are byte-copied (output bytes equal input bytes) with no
encoder run; conjunct 3: inputs missing any condition invoke the progressive
encoder. -/
theorem noop_copy_invariant (st : Settings) (inP outP : String)
    (c : TranscodeConfig) (env : OrchEnv) (files : FileMap) (bs : Bytes)
    (out1 : String) (rc2 : Int) (out2 : String)
    (hfmt : c.video_output_format = "progressive")
    (hval : env.validateOk = true)
    (hp1 : env.ntProbe1 = ProbeRun.completed 0 out1)
    (hp2 : env.ntProbe2 = ProbeRun.completed rc2 out2) :
    (needs_transcoding inP env.ntProbe1 env.ntProbe2 = false
      ↔ ((lowerStr (trimStr out1) = "h264" ∨ lowerStr (trimStr out1) = "libx264"
            ∨ lowerStr (trimStr out1) = "avc")
        ∧ lowerStr (suffixOf (pathName inP)) = ".mp4"
        ∧ (lowerStr (trimStr out2) ≠ ""
            ∧ hasSub (lowerStr (trimStr out2)) "10" = false
            ∧ hasSub (lowerStr (trimStr out2)) "12" = false)))
    ∧ (needs_transcoding inP env.ntProbe1 env.ntProbe2 = false →
        env.copyFailMsg = none → assocGet files inP = some bs →
        ((process_video_file st inP outP (some c) env files).trace.all
            (fun e => !isRun e) = true
          ∧ Effect.copyFile inP outP
              ∈ (process_video_file st inP outP (some c) env files).trace
          ∧ assocGet (process_video_file st inP outP (some c) env files).files outP
              = some bs
          ∧ ∃ r, (process_video_file st inP outP (some c) env files).result
                = Except.ok r ∧ r.success = true))
    ∧ (needs_transcoding inP env.ntProbe1 env.ntProbe2 = true →
        (process_video_file st inP outP (some c) env files).trace.any isRun
          = true) := by
  refine ⟨?_, ?_, ?_⟩
  · rw [hp1, hp2]
    unfold needs_transcoding
    simp
    tauto
  · intro hneeds hcopy hin
    have hred : process_video_file st inP outP (some c) env files
        = { result :=
              Except.ok
                { baseResult env.probe with
                  success := true, output_format := "progressive" },
            trace := [Effect.copyFile inP outP, Effect.extractThumb outP],
            files := assocSet files outP bs } := by
      unfold process_video_file
      rw [hval]
      simp [hfmt, hneeds, hcopy, hin]
    rw [hred]
    refine ⟨by simp [isRun], by simp, assocGet_assocSet files outP bs, ?_⟩
    exact ⟨_, rfl, rfl⟩
  · intro hneeds
    have hrun : (transcode_video st (some c) env.exec).2.any isRun = true :=
      transcodeGeneric_trace_has_run st (some c) env.exec _ _
    unfold process_video_file
    rw [hval]
    rcases htc : (transcode_video st (some c) env.exec).1 with e | ⟨suc, msg⟩
    · simp [hfmt, hneeds, htc, hrun]
    · cases suc
      · simp [hfmt, hneeds, htc, hrun]
      · simp [hfmt, hneeds, htc, hrun]

/-- Orchestrator environment for the no-op copy witness: probes report codec
h264 and pixel format yuv420p. -/
def c8env : OrchEnv :=
  { exec := { gpu := RunOutcome.raised "unused",
              cpu := fun _ => RunOutcome.completed 0 "" },
    ntProbe1 := ProbeRun.completed 0 "h264",
    ntProbe2 := ProbeRun.completed 0 "yuv420p" }

/-- Witness for `noop_copy_invariant` at a concrete environment. -/
theorem noop_copy_invariant_witness :
    (({ video_output_format := "progressive" } : TranscodeConfig).video_output_format
        = "progressive")
    ∧ c8env.validateOk = true
    ∧ c8env.ntProbe1 = ProbeRun.completed 0 "h264"
    ∧ c8env.ntProbe2 = ProbeRun.completed 0 "yuv420p"
    ∧ ((needs_transcoding "clip.mp4" c8env.ntProbe1 c8env.ntProbe2 = false
        ↔ ((lowerStr (trimStr "h264") = "h264" ∨ lowerStr (trimStr "h264") = "libx264"
              ∨ lowerStr (trimStr "h264") = "avc")
          ∧ lowerStr (suffixOf (pathName "clip.mp4")) = ".mp4"
          ∧ (lowerStr (trimStr "yuv420p") ≠ ""
              ∧ hasSub (lowerStr (trimStr "yuv420p")) "10" = false
              ∧ hasSub (lowerStr (trimStr "yuv420p")) "12" = false)))
      ∧ (needs_transcoding "clip.mp4" c8env.ntProbe1 c8env.ntProbe2 = false →
          c8env.copyFailMsg = none →
          assocGet [("clip.mp4", [7, 8, 9])] "clip.mp4" = some [7, 8, 9] →
          ((process_video_file {} "clip.mp4" "store/clip.mp4"
              (some { video_output_format := "progressive" }) c8env
              [("clip.mp4", [7, 8, 9])]).trace.all (fun e => !isRun e) = true
            ∧ Effect.copyFile "clip.mp4" "store/clip.mp4"
                ∈ (process_video_file {} "clip.mp4" "store/clip.mp4"
                    (some { video_output_format := "progressive" }) c8env
                    [("clip.mp4", [7, 8, 9])]).trace
            ∧ assocGet (process_video_file {} "clip.mp4" "store/clip.mp4"
                  (some { video_output_format := "progressive" }) c8env
                  [("clip.mp4", [7, 8, 9])]).files "store/clip.mp4" = some [7, 8, 9]
            ∧ ∃ r, (process_video_file {} "clip.mp4" "store/clip.mp4"
                    (some { video_output_format := "progressive" }) c8env
                    [("clip.mp4", [7, 8, 9])]).result = Except.ok r
                ∧ r.success = true))
      ∧ (needs_transcoding "clip.mp4" c8env.ntProbe1 c8env.ntProbe2 = true →
          (process_video_file {} "clip.mp4" "store/clip.mp4"
              (some { video_output_format := "progressive" }) c8env
              [("clip.mp4", [7, 8, 9])]).trace.any isRun = true)) :=
  ⟨rfl, rfl, rfl, rfl,
    noop_copy_invariant {} "clip.mp4" "store/clip.mp4"
      { video_output_format := "progressive" } c8env [("clip.mp4", [7, 8, 9])]
      [7, 8, 9] "h264" 0 "yuv420p" rfl rfl rfl rfl⟩

/-! ### Color profile resolution (claim about the command builders) -/

/-- The full-range decision of the command builders. -/
def isFullRange (ci : Option ColorInfo) : Bool :=
  match ci with
  | none => false
  | some c => c.color_range = some "pc" || (c.pix_fmt.getD "").startsWith "yuvj"

def cfgUseGpuT (st : Settings) (cfg : Option TranscodeConfig) : Bool :=
  match cfg with | some c => c.use_gpu_transcoding | none => st.USE_GPU_TRANSCODING

def cfgMaxWidth (cfg : Option TranscodeConfig) : Nat :=
  match cfg with | some c => c.max_width | none => 1920

def cfgMaxHeight (cfg : Option TranscodeConfig) : Nat :=
  match cfg with | some c => c.max_height | none => 1080

def cfgAudio (cfg : Option TranscodeConfig) : String :=
  match cfg with | some c => c.audio_bitrate | none => "192k"

def cfgNvencPreset (st : Settings) (cfg : Option TranscodeConfig) : String :=
  match cfg with | some c => c.nvenc_preset | none => st.NVENC_PRESET

def cfgNvencCq (st : Settings) (cfg : Option TranscodeConfig) : Nat :=
  match cfg with | some c => c.nvenc_cq | none => st.NVENC_CQ

def cfgNvencRC (st : Settings) (cfg : Option TranscodeConfig) : String :=
  match cfg with | some c => c.nvenc_rate_control | none => st.NVENC_RATE_CONTROL

def cfgNvencMaxBR (st : Settings) (cfg : Option TranscodeConfig) : String :=
  match cfg with | some c => c.nvenc_max_bitrate | none => st.NVENC_MAX_BITRATE

def cfgNvencBuf (st : Settings) (cfg : Option TranscodeConfig) : String :=
  match cfg with | some c => c.nvenc_buffer_size | none => st.NVENC_BUFFER_SIZE

def cfgCpuPreset (cfg : Option TranscodeConfig) : String :=
  match cfg with | some c => c.cpu_preset | none => "medium"

def cfgCpuCrf (cfg : Option TranscodeConfig) : Nat :=
  match cfg with | some c => c.cpu_crf | none => 18

theorem get_transcode_command_decomp (st : Settings) (inP outP : String)
    (cfg : Option TranscodeConfig) (g : Bool) (ci : Option ColorInfo) :
    get_transcode_command st inP outP cfg g ci
      = (if g && cfgUseGpuT st cfg then
          [st.FFMPEG_PATH, "-i", inP, "-vf",
           scaleFilterStr (cfgMaxWidth cfg) (cfgMaxHeight cfg) (isFullRange ci),
           "-c:v", "h264_nvenc", "-pix_fmt",
           (if isFullRange ci then "yuvj420p" else "yuv420p"),
           "-preset", cfgNvencPreset st cfg, "-rc", cfgNvencRC st cfg,
           "-cq", natStr (cfgNvencCq st cfg), "-b:v", "0",
           "-maxrate", cfgNvencMaxBR st cfg, "-bufsize", cfgNvencBuf st cfg]
         else
          [st.FFMPEG_PATH, "-i", inP, "-vf",
           scaleFilterStr (cfgMaxWidth cfg) (cfgMaxHeight cfg) (isFullRange ci),
           "-c:v", "libx264", "-pix_fmt",
           (if isFullRange ci then "yuvj420p" else "yuv420p"),
           "-preset", cfgCpuPreset cfg, "-crf", natStr (cfgCpuCrf cfg)])
        ++ colorFlags (if isFullRange ci then "pc" else "tv") ci
        ++ ["-c:a", "aac", "-b:a", cfgAudio cfg, "-movflags", "+faststart", "-y",
            outP] := by
  rcases cfg with _ | c
  · cases g <;> cases hb : st.USE_GPU_TRANSCODING <;>
      simp [get_transcode_command, cfgUseGpuT, cfgMaxWidth, cfgMaxHeight, cfgAudio,
        cfgNvencPreset, cfgNvencCq, cfgNvencRC, cfgNvencMaxBR, cfgNvencBuf,
        cfgCpuPreset, cfgCpuCrf, isFullRange, hb]
  · cases g <;> cases hb : c.use_gpu_transcoding <;>
      simp [get_transcode_command, cfgUseGpuT, cfgMaxWidth, cfgMaxHeight, cfgAudio,
        cfgNvencPreset, cfgNvencCq, cfgNvencRC, cfgNvencMaxBR, cfgNvencBuf,
        cfgCpuPreset, cfgCpuCrf, isFullRange, hb]

theorem get_hls_transcode_command_decomp (st : Settings) (inP outD : String)
    (cfg : Option TranscodeConfig) (g : Bool) (ci : Option ColorInfo) :
    get_hls_transcode_command st inP outD cfg g ci
      = (if g && cfgUseGpuT st cfg then
          [st.FFMPEG_PATH, "-i", inP, "-vf",
           scaleFilterStr (cfgMaxWidth cfg) (cfgMaxHeight cfg) (isFullRange ci),
           "-c:v", "h264_nvenc", "-pix_fmt",
           (if isFullRange ci then "yuvj420p" else "yuv420p"),
           "-preset", cfgNvencPreset st cfg, "-rc", cfgNvencRC st cfg,
           "-cq", natStr (cfgNvencCq st cfg), "-b:v", "0",
           "-maxrate", cfgNvencMaxBR st cfg, "-bufsize", cfgNvencBuf st cfg]
         else
          [st.FFMPEG_PATH, "-i", inP, "-vf",
           scaleFilterStr (cfgMaxWidth cfg) (cfgMaxHeight cfg) (isFullRange ci),
           "-c:v", "libx264", "-pix_fmt",
           (if isFullRange ci then "yuvj420p" else "yuv420p"),
           "-preset", cfgCpuPreset cfg, "-crf", natStr (cfgCpuCrf cfg)])
        ++ colorFlags (if isFullRange ci then "pc" else "tv") ci
        ++ ["-c:a", "aac", "-b:a", cfgAudio cfg, "-f", "hls", "-hls_time", natStr 4,
            "-hls_list_size", "0", "-hls_segment_type", "mpegts",
            "-hls_segment_filename", outD ++ "/segment%03d.ts", "-y",
            outD ++ "/master.m3u8"] := by
  rcases cfg with _ | c
  · cases g <;> cases hb : st.USE_GPU_TRANSCODING <;>
      simp [get_hls_transcode_command, cfgUseGpuT, cfgMaxWidth, cfgMaxHeight, cfgAudio,
        cfgNvencPreset, cfgNvencCq, cfgNvencRC, cfgNvencMaxBR, cfgNvencBuf,
        cfgCpuPreset, cfgCpuCrf, isFullRange, hb]
  · cases g <;> cases hb : c.use_gpu_transcoding <;>
      simp [get_hls_transcode_command, cfgUseGpuT, cfgMaxWidth, cfgMaxHeight, cfgAudio,
        cfgNvencPreset, cfgNvencCq, cfgNvencRC, cfgNvencMaxBR, cfgNvencBuf,
        cfgCpuPreset, cfgCpuCrf, isFullRange, hb]

/-- Variable strings of the builders other than the color-info values. -/
def cmdVarStrings (st : Settings) (cfg : Option TranscodeConfig) : List String :=
  [st.FFMPEG_PATH, cfgAudio cfg, cfgNvencPreset st cfg, cfgNvencRC st cfg,
   cfgNvencMaxBR st cfg, cfgNvencBuf st cfg, cfgCpuPreset cfg,
   natStr (cfgNvencCq st cfg), natStr (cfgCpuCrf cfg),
   scaleFilterStr (cfgMaxWidth cfg) (cfgMaxHeight cfg) true,
   scaleFilterStr (cfgMaxWidth cfg) (cfgMaxHeight cfg) false]

/-- The color metadata values carried by the color-info dictionary. -/
def ciVals (ci : Option ColorInfo) : List String :=
  match ci with
  | none => []
  | some c => c.color_space.toList ++ c.color_transfer.toList ++ c.color_primaries.toList

def spacePart (cc : ColorInfo) : List String :=
  match cc.color_space with | some v => ["-colorspace", v] | none => []

def trcPart (cc : ColorInfo) : List String :=
  match cc.color_transfer with | some v => ["-color_trc", v] | none => []

def primPart (cc : ColorInfo) : List String :=
  match cc.color_primaries with | some v => ["-color_primaries", v] | none => []

def colorTail (ci : Option ColorInfo) : List String :=
  match ci with
  | none => []
  | some cc => spacePart cc ++ trcPart cc ++ primPart cc

theorem colorFlags_eq (tag : String) (ci : Option ColorInfo) :
    colorFlags tag ci = ["-color_range", tag] ++ colorTail ci := by
  rcases ci with _ | cc <;> rfl

theorem scaleFilterStr_true_eq (w h : Nat) :
    scaleFilterStr w h true = scaleFilterStr w h false ++ ":out_range=full" := by
  simp [scaleFilterStr]

theorem scaleFilterStr_false_ne (w h : Nat) :
    scaleFilterStr w h false ≠ scaleFilterStr w h true := by
  intro hEq
  have hlen := congrArg String.length hEq
  rw [scaleFilterStr_true_eq, String.length_append] at hlen
  simp at hlen
  exact absurd hlen (by decide)

theorem colorFlags_infix_prog (st : Settings) (inP outP : String)
    (cfg : Option TranscodeConfig) (g : Bool) (ci : Option ColorInfo) :
    List.IsInfix (colorFlags (if isFullRange ci then "pc" else "tv") ci)
      (get_transcode_command st inP outP cfg g ci) := by
  rw [get_transcode_command_decomp]
  exact ⟨_, _, rfl⟩

theorem colorFlags_infix_hls (st : Settings) (inP outD : String)
    (cfg : Option TranscodeConfig) (g : Bool) (ci : Option ColorInfo) :
    List.IsInfix (colorFlags (if isFullRange ci then "pc" else "tv") ci)
      (get_hls_transcode_command st inP outD cfg g ci) := by
  rw [get_hls_transcode_command_decomp]
  exact ⟨_, _, rfl⟩

theorem color_range_infix_colorFlags (tag : String) (ci : Option ColorInfo) :
    List.IsInfix ["-color_range", tag] (colorFlags tag ci) :=
  ⟨[], colorTail ci, by rw [colorFlags_eq]; rfl⟩

theorem colorspace_infix_colorFlags (tag : String) (cc : ColorInfo) (v : String)
    (hv : cc.color_space = some v) :
    List.IsInfix ["-colorspace", v] (colorFlags tag (some cc)) := by
  refine ⟨["-color_range", tag], trcPart cc ++ primPart cc, ?_⟩
  rw [colorFlags_eq]
  simp [colorTail, spacePart, hv, List.append_assoc]

theorem color_trc_infix_colorFlags (tag : String) (cc : ColorInfo) (v : String)
    (hv : cc.color_transfer = some v) :
    List.IsInfix ["-color_trc", v] (colorFlags tag (some cc)) := by
  refine ⟨["-color_range", tag] ++ spacePart cc, primPart cc, ?_⟩
  rw [colorFlags_eq]
  simp [colorTail, trcPart, hv, List.append_assoc]

theorem color_primaries_infix_colorFlags (tag : String) (cc : ColorInfo) (v : String)
    (hv : cc.color_primaries = some v) :
    List.IsInfix ["-color_primaries", v] (colorFlags tag (some cc)) := by
  refine ⟨["-color_range", tag] ++ spacePart cc ++ trcPart cc, [], ?_⟩
  rw [colorFlags_eq]
  simp [colorTail, primPart, hv, List.append_assoc]

theorem colorspace_not_mem_colorTail (ci : Option ColorInfo)
    (hciv : "-colorspace" ∉ ciVals ci)
    (hnone : ci.bind ColorInfo.color_space = none) :
    "-colorspace" ∉ colorTail ci := by
  rcases ci with _ | cc
  · simp [colorTail]
  · have hcs : cc.color_space = none := by simpa using hnone
    rcases hct : cc.color_transfer with _ | v <;>
      rcases hcp : cc.color_primaries with _ | w <;>
        simp [colorTail, spacePart, trcPart, primPart, hcs, hct, hcp, ciVals]
          at hciv ⊢ <;> tauto

theorem color_trc_not_mem_colorTail (ci : Option ColorInfo)
    (hciv : "-color_trc" ∉ ciVals ci)
    (hnone : ci.bind ColorInfo.color_transfer = none) :
    "-color_trc" ∉ colorTail ci := by
  rcases ci with _ | cc
  · simp [colorTail]
  · have hct : cc.color_transfer = none := by simpa using hnone
    rcases hcs : cc.color_space with _ | v <;>
      rcases hcp : cc.color_primaries with _ | w <;>
        simp [colorTail, spacePart, trcPart, primPart, hcs, hct, hcp, ciVals]
          at hciv ⊢ <;> tauto

theorem color_primaries_not_mem_colorTail (ci : Option ColorInfo)
    (hciv : "-color_primaries" ∉ ciVals ci)
    (hnone : ci.bind ColorInfo.color_primaries = none) :
    "-color_primaries" ∉ colorTail ci := by
  rcases ci with _ | cc
  · simp [colorTail]
  · have hcp : cc.color_primaries = none := by simpa using hnone
    rcases hcs : cc.color_space with _ | v <;>
      rcases hct : cc.color_transfer with _ | w <;>
        simp [colorTail, spacePart, trcPart, primPart, hcs, hct, hcp, ciVals]
          at hciv ⊢ <;> tauto

set_option maxHeartbeats 1000000 in
theorem colorspace_not_mem_cmds (st : Settings) (inP outP outD : String)
    (cfg : Option TranscodeConfig) (g : Bool) (ci : Option ColorInfo)
    (hvar : "-colorspace" ∉ cmdVarStrings st cfg)
    (hciv : "-colorspace" ∉ ciVals ci)
    (hin : "-colorspace" ≠ inP) (hout : "-colorspace" ≠ outP)
    (hseg : "-colorspace" ≠ outD ++ "/segment%03d.ts")
    (hman : "-colorspace" ≠ outD ++ "/master.m3u8")
    (hnone : ci.bind ColorInfo.color_space = none) :
    "-colorspace" ∉ get_transcode_command st inP outP cfg g ci
    ∧ "-colorspace" ∉ get_hls_transcode_command st inP outD cfg g ci := by
  have htail : "-colorspace" ∉ colorTail ci := colorspace_not_mem_colorTail ci hciv hnone
  simp only [cmdVarStrings, List.mem_cons, List.mem_singleton, List.not_mem_nil,
    not_or] at hvar
  obtain ⟨hv1, hv2, hv3, hv4, hv5, hv6, hv7, hv8, hv9, hv10, hv11, -⟩ := hvar
  constructor
  · rw [get_transcode_command_decomp, colorFlags_eq]
    by_cases hgpu : (g && cfgUseGpuT st cfg) = true <;>
      cases hfr : isFullRange ci <;>
        simp [hgpu, hfr, htail, hin, hout, hv1, hv2, hv3, hv4, hv5, hv6, hv7, hv8,
          hv9, hv10, hv11]
  · rw [get_hls_transcode_command_decomp, colorFlags_eq]
    by_cases hgpu : (g && cfgUseGpuT st cfg) = true <;>
      cases hfr : isFullRange ci <;>
        simp [hgpu, hfr, htail, hin, hseg, hman, hv1, hv2, hv3, hv4, hv5, hv6, hv7,
          hv8, hv9, hv10, hv11] <;> decide

set_option maxHeartbeats 1000000 in
theorem color_trc_not_mem_cmds (st : Settings) (inP outP outD : String)
    (cfg : Option TranscodeConfig) (g : Bool) (ci : Option ColorInfo)
    (hvar : "-color_trc" ∉ cmdVarStrings st cfg)
    (hciv : "-color_trc" ∉ ciVals ci)
    (hin : "-color_trc" ≠ inP) (hout : "-color_trc" ≠ outP)
    (hseg : "-color_trc" ≠ outD ++ "/segment%03d.ts")
    (hman : "-color_trc" ≠ outD ++ "/master.m3u8")
    (hnone : ci.bind ColorInfo.color_transfer = none) :
    "-color_trc" ∉ get_transcode_command st inP outP cfg g ci
    ∧ "-color_trc" ∉ get_hls_transcode_command st inP outD cfg g ci := by
  have htail : "-color_trc" ∉ colorTail ci := color_trc_not_mem_colorTail ci hciv hnone
  simp only [cmdVarStrings, List.mem_cons, List.mem_singleton, List.not_mem_nil,
    not_or] at hvar
  obtain ⟨hv1, hv2, hv3, hv4, hv5, hv6, hv7, hv8, hv9, hv10, hv11, -⟩ := hvar
  constructor
  · rw [get_transcode_command_decomp, colorFlags_eq]
    by_cases hgpu : (g && cfgUseGpuT st cfg) = true <;>
      cases hfr : isFullRange ci <;>
        simp [hgpu, hfr, htail, hin, hout, hv1, hv2, hv3, hv4, hv5, hv6, hv7, hv8,
          hv9, hv10, hv11]
  · rw [get_hls_transcode_command_decomp, colorFlags_eq]
    by_cases hgpu : (g && cfgUseGpuT st cfg) = true <;>
      cases hfr : isFullRange ci <;>
        simp [hgpu, hfr, htail, hin, hseg, hman, hv1, hv2, hv3, hv4, hv5, hv6, hv7,
          hv8, hv9, hv10, hv11] <;> decide

set_option maxHeartbeats 1000000 in
theorem color_primaries_not_mem_cmds (st : Settings) (inP outP outD : String)
    (cfg : Option TranscodeConfig) (g : Bool) (ci : Option ColorInfo)
    (hvar : "-color_primaries" ∉ cmdVarStrings st cfg)
    (hciv : "-color_primaries" ∉ ciVals ci)
    (hin : "-color_primaries" ≠ inP) (hout : "-color_primaries" ≠ outP)
    (hseg : "-color_primaries" ≠ outD ++ "/segment%03d.ts")
    (hman : "-color_primaries" ≠ outD ++ "/master.m3u8")
    (hnone : ci.bind ColorInfo.color_primaries = none) :
    "-color_primaries" ∉ get_transcode_command st inP outP cfg g ci
    ∧ "-color_primaries" ∉ get_hls_transcode_command st inP outD cfg g ci := by
  have htail : "-color_primaries" ∉ colorTail ci := color_primaries_not_mem_colorTail ci hciv hnone
  simp only [cmdVarStrings, List.mem_cons, List.mem_singleton, List.not_mem_nil,
    not_or] at hvar
  obtain ⟨hv1, hv2, hv3, hv4, hv5, hv6, hv7, hv8, hv9, hv10, hv11, -⟩ := hvar
  constructor
  · rw [get_transcode_command_decomp, colorFlags_eq]
    by_cases hgpu : (g && cfgUseGpuT st cfg) = true <;>
      cases hfr : isFullRange ci <;>
        simp [hgpu, hfr, htail, hin, hout, hv1, hv2, hv3, hv4, hv5, hv6, hv7, hv8,
          hv9, hv10, hv11]
  · rw [get_hls_transcode_command_decomp, colorFlags_eq]
    by_cases hgpu : (g && cfgUseGpuT st cfg) = true <;>
      cases hfr : isFullRange ci <;>
        simp [hgpu, hfr, htail, hin, hseg, hman, hv1, hv2, hv3, hv4, hv5, hv6, hv7,
          hv8, hv9, hv10, hv11] <;> decide

theorem prog_cmd_positions (st : Settings) (inP outP : String)
    (cfg : Option TranscodeConfig) (g : Bool) (ci : Option ColorInfo) :
    (get_transcode_command st inP outP cfg g ci)[4]?
      = some (scaleFilterStr (cfgMaxWidth cfg) (cfgMaxHeight cfg) (isFullRange ci))
    ∧ (get_transcode_command st inP outP cfg g ci)[7]? = some "-pix_fmt"
    ∧ (get_transcode_command st inP outP cfg g ci)[8]?
      = some (if isFullRange ci then "yuvj420p" else "yuv420p") := by
  rw [get_transcode_command_decomp]
  by_cases hgpu : (g && cfgUseGpuT st cfg) = true
  · rw [if_pos hgpu]
    exact ⟨rfl, rfl, rfl⟩
  · rw [if_neg hgpu]
    exact ⟨rfl, rfl, rfl⟩

theorem hls_cmd_positions (st : Settings) (inP outD : String)
    (cfg : Option TranscodeConfig) (g : Bool) (ci : Option ColorInfo) :
    (get_hls_transcode_command st inP outD cfg g ci)[4]?
      = some (scaleFilterStr (cfgMaxWidth cfg) (cfgMaxHeight cfg) (isFullRange ci))
    ∧ (get_hls_transcode_command st inP outD cfg g ci)[7]? = some "-pix_fmt"
    ∧ (get_hls_transcode_command st inP outD cfg g ci)[8]?
      = some (if isFullRange ci then "yuvj420p" else "yuv420p") := by
  rw [get_hls_transcode_command_decomp]
  by_cases hgpu : (g && cfgUseGpuT st cfg) = true
  · rw [if_pos hgpu]
    exact ⟨rfl, rfl, rfl⟩
  · rw [if_neg hgpu]
    exact ⟨rfl, rfl, rfl⟩

/-- C6: color profile resolution. The builders treat the source as full range
exactly when `color_range == "pc"` or the pixel format starts with `yuvj`;
full range yields output pixel format `yuvj420p`, range tag `pc`, and a scale
filter with the explicit `out_range=full` expansion appended; otherwise
`yuv420p`, `tv`, and the plain filter; and the colorspace/transfer/primaries
flags appear (with the probed value) if and only if the source reports those
values. `Hb` says the job's variable strings do not collide with the three
reserved flag names. -/
theorem color_profile_resolution (st : Settings) (inP outP outD : String)
    (cfg : Option TranscodeConfig) (g : Bool) (ci : Option ColorInfo)
    (Hb : ∀ fl ∈ (["-colorspace", "-color_trc", "-color_primaries"] : List String),
      fl ∉ cmdVarStrings st cfg ∧ fl ∉ ciVals ci ∧ fl ≠ inP ∧ fl ≠ outP
      ∧ fl ≠ outD ++ "/segment%03d.ts" ∧ fl ≠ outD ++ "/master.m3u8") :
    (isFullRange ci = true
      ↔ ∃ cc, ci = some cc
          ∧ (cc.color_range = some "pc"
            ∨ (cc.pix_fmt.getD "").startsWith "yuvj" = true))
    ∧ (get_transcode_command st inP outP cfg g ci)[7]? = some "-pix_fmt"
    ∧ (get_transcode_command st inP outP cfg g ci)[8]?
        = some (if isFullRange ci then "yuvj420p" else "yuv420p")
    ∧ (get_hls_transcode_command st inP outD cfg g ci)[7]? = some "-pix_fmt"
    ∧ (get_hls_transcode_command st inP outD cfg g ci)[8]?
        = some (if isFullRange ci then "yuvj420p" else "yuv420p")
    ∧ (get_transcode_command st inP outP cfg g ci)[4]?
        = some (scaleFilterStr (cfgMaxWidth cfg) (cfgMaxHeight cfg) (isFullRange ci))
    ∧ (get_hls_transcode_command st inP outD cfg g ci)[4]?
        = some (scaleFilterStr (cfgMaxWidth cfg) (cfgMaxHeight cfg) (isFullRange ci))
    ∧ (∀ w h : Nat,
        scaleFilterStr w h true = scaleFilterStr w h false ++ ":out_range=full")
    ∧ (∀ w h : Nat, scaleFilterStr w h false ≠ scaleFilterStr w h true)
    ∧ List.IsInfix ["-color_range", if isFullRange ci then "pc" else "tv"]
        (get_transcode_command st inP outP cfg g ci)
    ∧ List.IsInfix ["-color_range", if isFullRange ci then "pc" else "tv"]
        (get_hls_transcode_command st inP outD cfg g ci)
    ∧ (∀ cc v, ci = some cc → cc.color_space = some v →
        List.IsInfix ["-colorspace", v] (get_transcode_command st inP outP cfg g ci)
        ∧ List.IsInfix ["-colorspace", v]
            (get_hls_transcode_command st inP outD cfg g ci))
    ∧ (ci.bind ColorInfo.color_space = none →
        "-colorspace" ∉ get_transcode_command st inP outP cfg g ci
        ∧ "-colorspace" ∉ get_hls_transcode_command st inP outD cfg g ci)
    ∧ (∀ cc v, ci = some cc → cc.color_transfer = some v →
        List.IsInfix ["-color_trc", v] (get_transcode_command st inP outP cfg g ci)
        ∧ List.IsInfix ["-color_trc", v]
            (get_hls_transcode_command st inP outD cfg g ci))
    ∧ (ci.bind ColorInfo.color_transfer = none →
        "-color_trc" ∉ get_transcode_command st inP outP cfg g ci
        ∧ "-color_trc" ∉ get_hls_transcode_command st inP outD cfg g ci)
    ∧ (∀ cc v, ci = some cc → cc.color_primaries = some v →
        List.IsInfix ["-color_primaries", v]
          (get_transcode_command st inP outP cfg g ci)
        ∧ List.IsInfix ["-color_primaries", v]
            (get_hls_transcode_command st inP outD cfg g ci))
    ∧ (ci.bind ColorInfo.color_primaries = none →
        "-color_primaries" ∉ get_transcode_command st inP outP cfg g ci
        ∧ "-color_primaries" ∉ get_hls_transcode_command st inP outD cfg g ci) := by
  obtain ⟨hs1, hs2, hs3, hs4, hs5, hs6⟩ := Hb "-colorspace" (by simp)
  obtain ⟨ht1, ht2, ht3, ht4, ht5, ht6⟩ := Hb "-color_trc" (by simp)
  obtain ⟨hp1, hp2, hp3, hp4, hp5, hp6⟩ := Hb "-color_primaries" (by simp)
  refine ⟨?_, (prog_cmd_positions st inP outP cfg g ci).2.1,
    (prog_cmd_positions st inP outP cfg g ci).2.2,
    (hls_cmd_positions st inP outD cfg g ci).2.1,
    (hls_cmd_positions st inP outD cfg g ci).2.2,
    (prog_cmd_positions st inP outP cfg g ci).1,
    (hls_cmd_positions st inP outD cfg g ci).1,
    scaleFilterStr_true_eq, scaleFilterStr_false_ne,
    (color_range_infix_colorFlags _ ci).trans (colorFlags_infix_prog st inP outP cfg g ci),
    (color_range_infix_colorFlags _ ci).trans (colorFlags_infix_hls st inP outD cfg g ci),
    ?_, ?_, ?_, ?_, ?_, ?_⟩
  · cases ci with
    | none => simp [isFullRange]
    | some cc =>
      simp [isFullRange]
  · intro cc v hci hv
    subst hci
    exact ⟨(colorspace_infix_colorFlags _ cc v hv).trans
        (colorFlags_infix_prog st inP outP cfg g (some cc)),
      (colorspace_infix_colorFlags _ cc v hv).trans
        (colorFlags_infix_hls st inP outD cfg g (some cc))⟩
  · intro hnone
    exact colorspace_not_mem_cmds st inP outP outD cfg g ci hs1 hs2 hs3 hs4 hs5 hs6 hnone
  · intro cc v hci hv
    subst hci
    exact ⟨(color_trc_infix_colorFlags _ cc v hv).trans
        (colorFlags_infix_prog st inP outP cfg g (some cc)),
      (color_trc_infix_colorFlags _ cc v hv).trans
        (colorFlags_infix_hls st inP outD cfg g (some cc))⟩
  · intro hnone
    exact color_trc_not_mem_cmds st inP outP outD cfg g ci ht1 ht2 ht3 ht4 ht5 ht6 hnone
  · intro cc v hci hv
    subst hci
    exact ⟨(color_primaries_infix_colorFlags _ cc v hv).trans
        (colorFlags_infix_prog st inP outP cfg g (some cc)),
      (color_primaries_infix_colorFlags _ cc v hv).trans
        (colorFlags_infix_hls st inP outD cfg g (some cc))⟩
  · intro hnone
    exact color_primaries_not_mem_cmds st inP outP outD cfg g ci hp1 hp2 hp3 hp4 hp5
      hp6 hnone

/-- Concrete color info for the witness: full-range source reporting a
colorspace but no transfer/primaries. -/
def c6ci : ColorInfo :=
  { color_range := some "pc", color_space := some "bt709",
    pix_fmt := some "yuv420p" }

set_option maxHeartbeats 2000000 in
/-- Witness for `color_profile_resolution` at a concrete job. -/
theorem color_profile_resolution_witness :
    (∀ fl ∈ (["-colorspace", "-color_trc", "-color_primaries"] : List String),
      fl ∉ cmdVarStrings ({} : Settings) (some ({} : TranscodeConfig))
      ∧ fl ∉ ciVals (some c6ci) ∧ fl ≠ "in.mp4" ∧ fl ≠ "out.mp4"
      ∧ fl ≠ "store/video" ++ "/segment%03d.ts"
      ∧ fl ≠ "store/video" ++ "/master.m3u8")
    ∧ (
    (isFullRange (some c6ci) = true
      ↔ ∃ cc, (some c6ci) = some cc
          ∧ (cc.color_range = some "pc"
            ∨ (cc.pix_fmt.getD "").startsWith "yuvj" = true))
    ∧ (get_transcode_command ({} : Settings) "in.mp4" "out.mp4" (some ({} : TranscodeConfig)) true (some c6ci))[7]? = some "-pix_fmt"
    ∧ (get_transcode_command ({} : Settings) "in.mp4" "out.mp4" (some ({} : TranscodeConfig)) true (some c6ci))[8]?
        = some (if isFullRange (some c6ci) then "yuvj420p" else "yuv420p")
    ∧ (get_hls_transcode_command ({} : Settings) "in.mp4" "store/video" (some ({} : TranscodeConfig)) true (some c6ci))[7]? = some "-pix_fmt"
    ∧ (get_hls_transcode_command ({} : Settings) "in.mp4" "store/video" (some ({} : TranscodeConfig)) true (some c6ci))[8]?
        = some (if isFullRange (some c6ci) then "yuvj420p" else "yuv420p")
    ∧ (get_transcode_command ({} : Settings) "in.mp4" "out.mp4" (some ({} : TranscodeConfig)) true (some c6ci))[4]?
        = some (scaleFilterStr (cfgMaxWidth (some ({} : TranscodeConfig))) (cfgMaxHeight (some ({} : TranscodeConfig))) (isFullRange (some c6ci)))
    ∧ (get_hls_transcode_command ({} : Settings) "in.mp4" "store/video" (some ({} : TranscodeConfig)) true (some c6ci))[4]?
        = some (scaleFilterStr (cfgMaxWidth (some ({} : TranscodeConfig))) (cfgMaxHeight (some ({} : TranscodeConfig))) (isFullRange (some c6ci)))
    ∧ (∀ w h : Nat,
        scaleFilterStr w h true = scaleFilterStr w h false ++ ":out_range=full")
    ∧ (∀ w h : Nat, scaleFilterStr w h false ≠ scaleFilterStr w h true)
    ∧ List.IsInfix ["-color_range", if isFullRange (some c6ci) then "pc" else "tv"]
        (get_transcode_command ({} : Settings) "in.mp4" "out.mp4" (some ({} : TranscodeConfig)) true (some c6ci))
    ∧ List.IsInfix ["-color_range", if isFullRange (some c6ci) then "pc" else "tv"]
        (get_hls_transcode_command ({} : Settings) "in.mp4" "store/video" (some ({} : TranscodeConfig)) true (some c6ci))
    ∧ (∀ cc v, (some c6ci) = some cc → cc.color_space = some v →
        List.IsInfix ["-colorspace", v] (get_transcode_command ({} : Settings) "in.mp4" "out.mp4" (some ({} : TranscodeConfig)) true (some c6ci))
        ∧ List.IsInfix ["-colorspace", v]
            (get_hls_transcode_command ({} : Settings) "in.mp4" "store/video" (some ({} : TranscodeConfig)) true (some c6ci)))
    ∧ ((some c6ci).bind ColorInfo.color_space = none →
        "-colorspace" ∉ get_transcode_command ({} : Settings) "in.mp4" "out.mp4" (some ({} : TranscodeConfig)) true (some c6ci)
        ∧ "-colorspace" ∉ get_hls_transcode_command ({} : Settings) "in.mp4" "store/video" (some ({} : TranscodeConfig)) true (some c6ci))
    ∧ (∀ cc v, (some c6ci) = some cc → cc.color_transfer = some v →
        List.IsInfix ["-color_trc", v] (get_transcode_command ({} : Settings) "in.mp4" "out.mp4" (some ({} : TranscodeConfig)) true (some c6ci))
        ∧ List.IsInfix ["-color_trc", v]
            (get_hls_transcode_command ({} : Settings) "in.mp4" "store/video" (some ({} : TranscodeConfig)) true (some c6ci)))
    ∧ ((some c6ci).bind ColorInfo.color_transfer = none →
        "-color_trc" ∉ get_transcode_command ({} : Settings) "in.mp4" "out.mp4" (some ({} : TranscodeConfig)) true (some c6ci)
        ∧ "-color_trc" ∉ get_hls_transcode_command ({} : Settings) "in.mp4" "store/video" (some ({} : TranscodeConfig)) true (some c6ci))
    ∧ (∀ cc v, (some c6ci) = some cc → cc.color_primaries = some v →
        List.IsInfix ["-color_primaries", v]
          (get_transcode_command ({} : Settings) "in.mp4" "out.mp4" (some ({} : TranscodeConfig)) true (some c6ci))
        ∧ List.IsInfix ["-color_primaries", v]
            (get_hls_transcode_command ({} : Settings) "in.mp4" "store/video" (some ({} : TranscodeConfig)) true (some c6ci)))
    ∧ ((some c6ci).bind ColorInfo.color_primaries = none →
        "-color_primaries" ∉ get_transcode_command ({} : Settings) "in.mp4" "out.mp4" (some ({} : TranscodeConfig)) true (some c6ci)
        ∧ "-color_primaries" ∉ get_hls_transcode_command ({} : Settings) "in.mp4" "store/video" (some ({} : TranscodeConfig)) true (some c6ci))) :=
  ⟨by decide,
    color_profile_resolution {} "in.mp4" "out.mp4" "store/video"
      (some {}) true (some c6ci) (by decide)⟩

/-! ### The background processing task (`background_tasks.process_video_task`) -/

/-- `ProcessingStatus` (models/video.py). -/
inductive ProcessingStatus where
  | pending
  | processing
  | completed
  | failed
deriving Repr, DecidableEq

/-- The fields of the `Video` record that `process_video_task` reads or
writes. -/
structure VideoRec where
  filename : String
  processing_status : ProcessingStatus := ProcessingStatus.pending
  error_message : Option String := none
  duration_seconds : Option MVal := none
  thumbnail_filename : Option String := none
  file_size_bytes : Option Nat := none
deriving Repr, DecidableEq

/-- Modelled from the spec: `storage.normalize_video_extension` is called at
background_tasks.py line 89 under the comment "Normalize output filename to
.mp4", but no definition of it exists in the repository; per the spec the
progressive branch produces a single `.mp4` file and the segmented branch a
directory named from the asset stem, so the normalised output filename is the
stem with the `.mp4` extension. -/
def normalize_video_extension (name : String) : String := stemOf name ++ ".mp4"

/-- Environment of one `process_video_task` call: the database fetch, the
loaded transcoding config (`none` models the config-load exception handler
falling back to defaults), the value returned (or exception raised) by
`process_video_file`, and the filesystem probes of the result-update step. -/
structure TaskEnv where
  video : Option VideoRec := none
  transcode_config : Option TranscodeConfig := none
  procResult : Except PyError PResult := Except.ok {}
  thumbnailExists : Bool := false
  hlsTotalSize : Option Nat := none
  outputSize : Option Nat := none
deriving Repr

/-- Result of one `process_video_task` call: the committed `Video` record and
the contents of the temp-storage directory after the `finally` block ran. -/
structure TaskOut where
  video : Option VideoRec
  tempFiles : List String
deriving Repr, DecidableEq

/-- The `finally` block of `process_video_task`: recomputes
`temp_path = Path(settings.TEMP_STORAGE_PATH) / video.filename` from the
record as it stands on exit (after any filename mutation of the success
branch) and deletes that file if it exists; when the fetch returned no
record, `video.filename` raises and the inner handler swallows it, so
nothing is deleted. -/
def taskFinally (video : Option VideoRec) (tempFiles : List String) :
    List String :=
  match video with
  | none => tempFiles
  | some v => tempFiles.filter (fun f => f ≠ v.filename)

/-- `process_video_task` (background_tasks.py lines 31-216): fetch the record,
mark it `PROCESSING`, load the config, check the temp input exists
(`FileNotFoundError` otherwise, caught by the outer handler which marks the
record `FAILED`), run `process_video_file`, commit the `FAILED` or `COMPLETED`
result — the success branch rewrites `video.filename` to the HLS directory
stem or to the normalised output filename — and finally delete the temp file
named by the (possibly rewritten) `video.filename`. `tempFiles0` is the list
of filenames present in temp storage when the task starts; the returned
`tempFiles` is that directory after the `finally` block. On the failure
branch `result["error"]` is always a string (every non-success return of
`process_video_file` sets it), so `result.get("error", "Unknown error")` is
modelled as `getD`. -/
def process_video_task (env : TaskEnv) (tempFiles0 : List String) : TaskOut :=
  match env.video with
  | none => { video := none, tempFiles := taskFinally none tempFiles0 }
  | some v0 =>
    let v1 := { v0 with processing_status := ProcessingStatus.processing }
    let output_filename := normalize_video_extension v1.filename
    let thumbnail_filename := stemOf output_filename ++ ".jpg"
    if v1.filename ∉ tempFiles0 then
      let v2 := { v1 with
        processing_status := ProcessingStatus.failed,
        error_message := some (("Processing error: Temp file not found: "
          ++ v1.filename).take 500) }
      { video := some v2, tempFiles := taskFinally (some v2) tempFiles0 }
    else
      match env.procResult with
      | Except.error e =>
        let m := match e with
          | PyError.timeoutError => "TimeoutError"
          | PyError.exn s => s
        let v2 := { v1 with
          processing_status := ProcessingStatus.failed,
          error_message := some (("Processing error: " ++ m).take 500) }
        { video := some v2, tempFiles := taskFinally (some v2) tempFiles0 }
      | Except.ok r =>
        if !r.success then
          let error_msg := r.error.getD "Unknown error"
          let v2 := { v1 with
            processing_status := ProcessingStatus.failed,
            error_message := some (error_msg.take 500) }
          { video := some v2, tempFiles := taskFinally (some v2) tempFiles0 }
        else
          let v2 := { v1 with
            processing_status := ProcessingStatus.completed,
            duration_seconds := r.duration,
            thumbnail_filename :=
              if env.thumbnailExists then some thumbnail_filename else none }
          let v3 :=
            if r.output_format = "hls" then
              let hls_dir_name := stemOf output_filename
              let v := if v2.filename ≠ hls_dir_name then
                  { v2 with filename := hls_dir_name } else v2
              match env.hlsTotalSize with
              | some n => { v with file_size_bytes := some n }
              | none => v
            else
              let v := if v2.filename ≠ output_filename then
                  { v2 with filename := output_filename } else v2
              match env.outputSize with
              | some n => { v with file_size_bytes := some n }
              | none => v
          { video := some v3, tempFiles := taskFinally (some v3) tempFiles0 }

/-- The failing C3 input: a video record whose uploaded filename is
`clip.mp4`, an HLS-configured job whose `process_video_file` call reports
success with `output_format = "hls"`. -/
def c3env : TaskEnv :=
  { video := some { filename := "clip.mp4" },
    transcode_config := some {},
    procResult := Except.ok { success := true, output_format := "hls" },
    hlsTotalSize := some 4096 }

/-- A contrasting run of the same record whose `process_video_file` call
reports failure. -/
def c3failEnv : TaskEnv :=
  { video := some { filename := "clip.mp4" },
    transcode_config := some {},
    procResult := Except.ok { success := false, error := some "boom" } }

/-- **C3.** The claim states the original temporary input file is deleted on
every exit path of the processing task. The code deviates on the successful
segmented path: the success branch rewrites `video.filename` to the HLS
directory stem (`clip`), and the `finally` block then recomputes the temp
path from the rewritten filename, so it deletes `temp/clip` — a file that
does not exist — and the original input `temp/clip.mp4` survives. On the
failure path, where the filename is not rewritten, the same `finally` block
does delete the original input, confirming the divergence is the filename
rewrite, not the finalizer itself. -/
theorem temp_cleanup_misses_renamed_input :
    ((process_video_task c3env ["clip.mp4"]).tempFiles = ["clip.mp4"] ∧
     (process_video_task c3env ["clip.mp4"]).video.map
       VideoRec.processing_status = some ProcessingStatus.completed ∧
     (process_video_task c3env ["clip.mp4"]).video.map
       VideoRec.filename = some "clip") ∧
    ((process_video_task c3failEnv ["clip.mp4"]).tempFiles = [] ∧
     (process_video_task c3failEnv ["clip.mp4"]).video.map
       VideoRec.processing_status = some ProcessingStatus.failed) := by
  exact ⟨⟨rfl, rfl, rfl⟩, ⟨rfl, rfl⟩⟩

/-! ### The migration state (`background_tasks._migration_state`) -/

/-- A store of Python list objects: each allocated list lives at a reference,
`next` is the next fresh reference. Assignment shadows (the first entry for a
reference is its current contents). -/
structure MigHeap where
  lists : List (Nat × List String)
  next : Nat
deriving Repr, DecidableEq

/-- Contents of the list object at reference `r`. -/
def heapGet (h : MigHeap) (r : Nat) : List String := (h.lists.lookup r).getD []

/-- In-place mutation of the list object at reference `r`. -/
def heapSet (h : MigHeap) (r : Nat) (v : List String) : MigHeap :=
  { h with lists := (r, v) :: h.lists }

/-- The `_migration_state` dictionary: four scalar slots plus the slot holding
the *reference* of the errors list object. -/
structure MigState where
  is_running : Bool := false
  total : Nat := 0
  completed : Nat := 0
  current_video : Option String := none
  errorsRef : Nat := 0
deriving Repr, DecidableEq

/-- `get_migration_status`: `return _migration_state.copy()` — a *shallow*
copy. The five slots are copied by value; the scalar values are immutable,
and the errors slot is copied as the same list reference, so the snapshot is
the same `MigState` value (holding the same `errorsRef`, not a copy of the
list it points to). -/
def get_migration_status (s : MigState) : MigState := s

/-- The errors a holder of state `s` reads (`_migration_state["errors"]`,
dereferenced). -/
def readErrors (h : MigHeap) (s : MigState) : List String :=
  heapGet h s.errorsRef

/-- `_migration_state["errors"].append(msg)` (background_tasks.py lines
403-408): mutates the shared list object in place. -/
def appendError (h : MigHeap) (s : MigState) (m : String) : MigHeap :=
  heapSet h s.errorsRef (heapGet h s.errorsRef ++ [m])

/-- `_migration_state["errors"] = []` (line 351): rebinds the slot to a fresh
empty list object; the old object is untouched. -/
def resetErrors (h : MigHeap) (s : MigState) : MigHeap × MigState :=
  ({ lists := (h.next, []) :: h.lists, next := h.next + 1 },
   { s with errorsRef := h.next })

/-- `_migration_state["is_running"] = b` (lines 350, 421). -/
def setRunning (s : MigState) (b : Bool) : MigState := { s with is_running := b }

/-- `_migration_state["completed"] += 1` (line 401). -/
def incCompleted (s : MigState) : MigState := { s with completed := s.completed + 1 }

/-- `_migration_state["current_video"] = v` (lines 396, 422). -/
def setCurrent (s : MigState) (v : Option String) : MigState :=
  { s with current_video := v }

/-- **C9 (counterexample).** `get_migration_status` returns a shallow copy
whose errors slot is the live list object itself: after the migration loop
appends `"Failed to migrate: v1"` to the live state's errors list, the
previously returned snapshot reads the appended message — the live mutable
list is reachable through the snapshot, contradicting the claimed
point-in-time isolation. -/
theorem migration_snapshot_shares_errors_cex :
    (readErrors { lists := [(0, [])], next := 1 }
      (get_migration_status
        { is_running := true, total := 1, errorsRef := 0 }) = [] ∧
     readErrors
      (appendError { lists := [(0, [])], next := 1 }
        { is_running := true, total := 1, errorsRef := 0 }
        "Failed to migrate: v1")
      (get_migration_status
        { is_running := true, total := 1, errorsRef := 0 })
        = ["Failed to migrate: v1"]) := by
  exact ⟨rfl, rfl⟩

/-- **C9 (amended).** `get_migration_status` returns a *shallow* copy: the
four scalar slots of a previously returned snapshot are genuinely isolated —
subsequently incrementing `completed`, rewriting `current_video` or clearing
`is_running` on the live state leaves the snapshot's values unchanged — and
the per-batch rebinding `errors = []` gives the live state a fresh list
object that old snapshots do not see; but the errors *list object* is shared
between the live state and every snapshot taken since the last rebinding, so
appending an error to the live state is visible through the snapshot. -/
theorem migration_snapshot_shallow_copy (h : MigHeap) (s : MigState)
    (m : String) (v : Option String) (hs : s.errorsRef < h.next) :
    ((get_migration_status s).is_running = s.is_running ∧
     (get_migration_status s).total = s.total ∧
     (get_migration_status s).completed = s.completed ∧
     (get_migration_status s).current_video = s.current_video) ∧
    ((incCompleted s).completed = s.completed + 1 ∧
     (get_migration_status s).completed = s.completed ∧
     (setCurrent s v).current_video = v ∧
     (get_migration_status s).current_video = s.current_video ∧
     (setRunning s false).is_running = false ∧
     (get_migration_status s).is_running = s.is_running) ∧
    readErrors (appendError h s m) (get_migration_status s)
      = readErrors h (get_migration_status s) ++ [m] ∧
    ((resetErrors h s).2.errorsRef ≠ (get_migration_status s).errorsRef ∧
     readErrors (resetErrors h s).1 (get_migration_status s)
      = readErrors h (get_migration_status s)) := by
  refine ⟨⟨rfl, rfl, rfl, rfl⟩, ⟨rfl, rfl, rfl, rfl, rfl, rfl⟩, ?_, ?_, ?_⟩
  · simp [readErrors, appendError, heapSet, heapGet, get_migration_status,
      List.lookup]
  · exact fun hEq => absurd hEq.symm (Nat.ne_of_lt hs)
  · have hne : (s.errorsRef == h.next) = false := by
      simp [Nat.ne_of_lt hs]
    simp [readErrors, resetErrors, heapGet, get_migration_status,
      List.lookup, hne]

/-- **C9 (witness).** The amended theorem at a concrete one-list heap. -/
theorem migration_snapshot_shallow_copy_witness :
    (0 : Nat) < 1 ∧
    (((get_migration_status ({ errorsRef := 0 } : MigState)).is_running
        = ({ errorsRef := 0 } : MigState).is_running ∧
      (get_migration_status ({ errorsRef := 0 } : MigState)).total
        = ({ errorsRef := 0 } : MigState).total ∧
      (get_migration_status ({ errorsRef := 0 } : MigState)).completed
        = ({ errorsRef := 0 } : MigState).completed ∧
      (get_migration_status ({ errorsRef := 0 } : MigState)).current_video
        = ({ errorsRef := 0 } : MigState).current_video) ∧
     ((incCompleted ({ errorsRef := 0 } : MigState)).completed
        = ({ errorsRef := 0 } : MigState).completed + 1 ∧
      (get_migration_status ({ errorsRef := 0 } : MigState)).completed
        = ({ errorsRef := 0 } : MigState).completed ∧
      (setCurrent ({ errorsRef := 0 } : MigState) (some "v")).current_video
        = some "v" ∧
      (get_migration_status ({ errorsRef := 0 } : MigState)).current_video
        = ({ errorsRef := 0 } : MigState).current_video ∧
      (setRunning ({ errorsRef := 0 } : MigState) false).is_running = false ∧
      (get_migration_status ({ errorsRef := 0 } : MigState)).is_running
        = ({ errorsRef := 0 } : MigState).is_running) ∧
     readErrors
        (appendError ({ lists := [(0, [])], next := 1 } : MigHeap)
          ({ errorsRef := 0 } : MigState) "e")
        (get_migration_status ({ errorsRef := 0 } : MigState))
      = readErrors ({ lists := [(0, [])], next := 1 } : MigHeap)
          (get_migration_status ({ errorsRef := 0 } : MigState)) ++ ["e"] ∧
     ((resetErrors ({ lists := [(0, [])], next := 1 } : MigHeap)
          ({ errorsRef := 0 } : MigState)).2.errorsRef
        ≠ (get_migration_status ({ errorsRef := 0 } : MigState)).errorsRef ∧
      readErrors
          (resetErrors ({ lists := [(0, [])], next := 1 } : MigHeap)
            ({ errorsRef := 0 } : MigState)).1
          (get_migration_status ({ errorsRef := 0 } : MigState))
        = readErrors ({ lists := [(0, [])], next := 1 } : MigHeap)
            (get_migration_status ({ errorsRef := 0 } : MigState)))) :=
  ⟨by decide,
   migration_snapshot_shallow_copy { lists := [(0, [])], next := 1 }
     { errorsRef := 0 } "e" (some "v") (by decide)⟩
